import Mathlib

/-!
Verification development for the HDP reference-architecture POC
(PCM authorization server / resource server, DS policy-enforcement point).

The JavaScript sources are shallowly embedded below: pure functions become
Lean functions, the in-memory stores become explicit values threaded through
the handlers, and every handler is a total function from its request and the
current state to a response plus the successor state.  Machine integers are
`Nat` with explicit `% 2 ^ 32` where 32-bit overflow matters (SHA-256).
-/

namespace HDP

/-! ## Byte-level primitives (crypto.js / Node `crypto`, `Buffer`)

The source hashes certificates with SHA-256 (`crypto.createHash('sha256')`),
decodes PEM bodies with `Buffer.from(base64body, 'base64')` and emits
thumbprints with `digest('base64url')` (unpadded).  These primitives are
implemented concretely so that every theorem below is executable. -/

/-- Truncation to a 32-bit word. -/
def w32 (n : Nat) : Nat := n % 4294967296

/-- Right rotation of a 32-bit word by `b` bits. -/
def rotr (b n : Nat) : Nat := w32 (n / 2 ^ b + n % 2 ^ b * 2 ^ (32 - b))

/-- Right shift of a 32-bit word by `b` bits. -/
def shr (b n : Nat) : Nat := n / 2 ^ b

/-- Bitwise XOR of three 32-bit words. -/
def xor3 (a b c : Nat) : Nat := Nat.xor (Nat.xor a b) c

/-- SHA-256 round constants. -/
def sha256K : List Nat :=
  [1116352408, 1899447441, 3049323471, 3921009573, 961987163, 1508970993,
   2453635748, 2870763221, 3624381080, 310598401, 607225278, 1426881987,
   1925078388, 2162078206, 2614888103, 3248222580, 3835390401, 4022224774,
   264347078, 604807628, 770255983, 1249150122, 1555081692, 1996064986,
   2554220882, 2821834349, 2952996808, 3210313671, 3336571891, 3584528711,
   113926993, 338241895, 666307205, 773529912, 1294757372, 1396182291,
   1695183700, 1986661051, 2177026350, 2456956037, 2730485921, 2820302411,
   3259730800, 3345764771, 3516065817, 3600352804, 4094571909, 275423344,
   430227734, 506948616, 659060556, 883997877, 958139571, 1322822218,
   1537002063, 1747873779, 1955562222, 2024104815, 2227730452, 2361852424,
   2428436474, 2756734187, 3204031479, 3329325298]

/-- SHA-256 initial hash state. -/
def sha256Init : List Nat :=
  [1779033703, 3144134277, 1013904242, 2773480762, 1359893119, 2600822924,
   528734635, 1541459225]

/-- Append SHA-256 padding to a message given as bytes. -/
def sha256Pad (msg : List Nat) : List Nat :=
  let len := msg.length
  let zeros := (64 - (len + 9) % 64) % 64
  msg ++ [0x80] ++ List.replicate zeros 0 ++
    (List.range 8).map (fun i => (len * 8) / 2 ^ (8 * (7 - i)) % 256)

/-- Split a byte list into 32-bit big-endian words. -/
def bytesToWords : List Nat → List Nat
  | b0 :: b1 :: b2 :: b3 :: rest =>
      (((b0 * 256 + b1) * 256 + b2) * 256 + b3) :: bytesToWords rest
  | _ => []

/-- SHA-256 message-schedule extension of a 16-word block to 64 words. -/
def sha256Schedule (ws : List Nat) (i : Nat) : List Nat :=
  match i with
  | 0 => ws
  | n + 1 =>
      let ws' := sha256Schedule ws n
      let t := 16 + n
      let w15 := ws'.getD (t - 15) 0
      let w2 := ws'.getD (t - 2) 0
      let s0 := xor3 (rotr 7 w15) (rotr 18 w15) (shr 3 w15)
      let s1 := xor3 (rotr 17 w2) (rotr 19 w2) (shr 10 w2)
      ws' ++ [w32 (ws'.getD (t - 16) 0 + s0 + ws'.getD (t - 7) 0 + s1)]

/-- One SHA-256 compression round. -/
def sha256Round (st : List Nat) (k w : Nat) : List Nat :=
  match st with
  | [a, b, c, d, e, f, g, h] =>
      let s1 := xor3 (rotr 6 e) (rotr 11 e) (rotr 25 e)
      let ch := Nat.xor (Nat.land e f) (Nat.land (4294967295 - e) g)
      let t1 := w32 (h + s1 + ch + k + w)
      let s0 := xor3 (rotr 2 a) (rotr 13 a) (rotr 22 a)
      let mj := Nat.xor (Nat.xor (Nat.land a b) (Nat.land a c)) (Nat.land b c)
      let t2 := w32 (s0 + mj)
      [w32 (t1 + t2), a, b, c, w32 (d + t1), e, f, g]
  | st => st

/-- Compress one 64-byte block into the running hash state. -/
def sha256Block (st : List Nat) (block : List Nat) : List Nat :=
  let ws := sha256Schedule (bytesToWords block) 48
  let fin := (sha256K.zip ws).foldl (fun s kw => sha256Round s kw.1 kw.2) st
  (st.zip fin).map (fun p => w32 (p.1 + p.2))

/-- Iterate compression over the given number of 64-byte chunks. -/
def sha256Chunks : Nat → List Nat → List Nat → List Nat
  | 0, st, _ => st
  | n + 1, st, bytes => sha256Chunks n (sha256Block st (bytes.take 64)) (bytes.drop 64)

/-- SHA-256 of a byte list, as 32 digest bytes. -/
def sha256 (msg : List Nat) : List Nat :=
  let padded := sha256Pad msg
  (sha256Chunks (padded.length / 64) sha256Init padded).flatMap
    (fun word => (List.range 4).map (fun i => word / 2 ^ (8 * (3 - i)) % 256))

/-- Lowercase hexadecimal digit. -/
def hexDigit (n : Nat) : Char :=
  if n < 10 then Char.ofNat (48 + n) else Char.ofNat (87 + n)

/-- Lowercase hexadecimal encoding of bytes (`digest('hex')`). -/
def hexEncode (bs : List Nat) : String :=
  String.mk (bs.flatMap (fun b => [hexDigit (b / 16), hexDigit (b % 16)]))

/-- UTF-8 encoding of a string as bytes (what `hash.update(string)` uses in
Node); code points at or above U+0080 take the standard multi-byte forms. -/
def utf8Encode (s : String) : List Nat :=
  s.data.flatMap (fun c =>
    let n := c.toNat
    if n < 0x80 then [n]
    else if n < 0x800 then [0xc0 + n / 64, 0x80 + n % 64]
    else if n < 0x10000 then
      [0xe0 + n / 4096, 0x80 + n / 64 % 64, 0x80 + n % 64]
    else
      [0xf0 + n / 262144, 0x80 + n / 4096 % 64, 0x80 + n / 64 % 64,
       0x80 + n % 64])

/-- The base64 alphabet value of a character, if it has one. -/
def base64Val (c : Char) : Option Nat :=
  if 65 ≤ c.toNat ∧ c.toNat ≤ 90 then some (c.toNat - 65)
  else if 97 ≤ c.toNat ∧ c.toNat ≤ 122 then some (c.toNat - 71)
  else if 48 ≤ c.toNat ∧ c.toNat ≤ 57 then some (c.toNat + 4)
  else if c = '+' then some 62
  else if c = '/' then some 63
  else none

/-- Pack a list of 6-bit groups into bytes (dropping a trailing partial byte),
the accumulator carrying the bit buffer and its width. -/
def packSextets : List Nat → Nat → Nat → List Nat
  | [], _, _ => []
  | v :: rest, acc, bits =>
      let acc' := acc * 64 + v
      let bits' := bits + 6
      if bits' ≥ 8 then
        acc' / 2 ^ (bits' - 8) % 256 :: packSextets rest (acc' % 2 ^ (bits' - 8)) (bits' - 8)
      else
        packSextets rest acc' bits'

/-- Base64 decoding as performed by `Buffer.from(s, "base64")` in Node:
characters outside the alphabet (including `=` padding and whitespace) are
ignored, and a trailing partial byte is dropped. -/
def base64Decode (s : String) : List Nat :=
  packSextets (s.data.filterMap base64Val) 0 0

/-- The base64url alphabet character for a 6-bit value. -/
def base64UrlChar (n : Nat) : Char :=
  if n < 26 then Char.ofNat (65 + n)
  else if n < 52 then Char.ofNat (97 + n - 26)
  else if n < 62 then Char.ofNat (48 + n - 52)
  else if n = 62 then '-' else '_'

/-- Unpadded base64url encoding of bytes (`digest('base64url')`). -/
def base64UrlEncode (bs : List Nat) : String :=
  String.mk (go bs)
where
  /-- Encode three bytes at a time, then the 1- or 2-byte tail, no padding. -/
  go : List Nat → List Char
  | b0 :: b1 :: b2 :: rest =>
      let n := (b0 * 256 + b1) * 256 + b2
      base64UrlChar (n / 262144) :: base64UrlChar (n / 4096 % 64) ::
        base64UrlChar (n / 64 % 64) :: base64UrlChar (n % 64) :: go rest
  | [b0, b1] =>
      let n := b0 * 256 + b1
      [base64UrlChar (n / 1024), base64UrlChar (n / 16 % 64),
       base64UrlChar (n % 16 * 4)]
  | [b0] => [base64UrlChar (b0 / 4), base64UrlChar (b0 % 4 * 16)]
  | [] => []

/-! ## Shared string helpers

JavaScript string truthiness (the empty string is falsy) and the pervasive
`ref.split('/').pop()` idiom.  String splitting, prefix test, trim and
character search are implemented over the character list so that every
theorem below evaluates inside the kernel. -/

/-- JavaScript string truthiness: every string except the empty one. -/
def truthy (s : String) : Bool := s ≠ ""

/-- Split a character list on a separator; the result always has one more
part than there are separators, matching `String.prototype.split`. -/
def splitChars (sep : Char) : List Char → List (List Char)
  | [] => [[]]
  | c :: cs =>
    match splitChars sep cs with
    | [] => [[]]
    | h :: t => if c = sep then [] :: h :: t else (c :: h) :: t

/-- `s.split(sep)` for a single-character separator (the only shape the
source uses). -/
def jsSplit (s : String) (sep : Char) : List String :=
  (splitChars sep s.data).map String.mk

/-- `s.startsWith(pre)`. -/
def jsStartsWith (s pre : String) : Bool := pre.data.isPrefixOf s.data

/-- ASCII whitespace (all that PEM lines can carry). -/
def isSpaceChar (c : Char) : Bool := c = ' ' ∨ c = '\t' ∨ c = '\n' ∨ c = '\r'

/-- `s.trim()` over ASCII whitespace. -/
def jsTrim (s : String) : String :=
  String.mk (((s.data.dropWhile isSpaceChar).reverse.dropWhile isSpaceChar).reverse)

/-- `s.includes(c)` for a single character. -/
def jsContains (s : String) (c : Char) : Bool := s.data.contains c

/-- Last path segment, as `s.split('/').pop()` computes it. -/
def lastSegment (s : String) : String := (jsSplit s '/').getLastD ""

/-- Optional-chained last segment, as `ref?.reference?.split('/').pop()` in
auth.js: applied whenever the reference string is present, even when empty. -/
def refLastSegment (r : Option String) : Option String := r.map lastSegment

/-- The `getRefId` helper of the FHIR router: `ref ? ref.split('/').pop() :
null`, so an empty string is treated as absent. -/
def getRefId : Option String → Option String
  | none => none
  | some r => if truthy r then some (lastSegment r) else none

/-! ## crypto.js -/

/-- Strip the PEM armor as `certToX5tS256` does for string input: split on
newlines, drop every line whose trimmed form starts with dashes, and
concatenate the remaining trimmed lines. -/
def pemBody (pem : String) : String :=
  String.join ((jsSplit pem '\n').filterMap (fun line =>
    if jsStartsWith (jsTrim line) "-----" then none else some (jsTrim line)))

/-- Thumbprint of a DER-encoded certificate given as raw bytes
(the `Buffer` branch of `certToX5tS256`). -/
def certToX5tS256Der (der : List Nat) : String := base64UrlEncode (sha256 der)

/-- Thumbprint of a PEM string (the string branch of `certToX5tS256`):
base64-decode the armor-stripped body to DER, hash, base64url-encode. -/
def certToX5tS256Pem (pem : String) : String :=
  certToX5tS256Der (base64Decode (pemBody pem))

/-! ## Data model (fhir/store.js, store.js)

Fields of the JSON resources that no embedded handler ever reads
(names, telecom, payload types, connection types, …) are omitted.  `""` in a
field that JavaScript tests for truthiness models an absent value. -/

/-- Coding element `{system, code, display}`. -/
structure Coding where
  system : String
  code : String
  display : Option String := none
deriving DecidableEq, Repr

/-- CodeableConcept element: a list of codings. -/
structure CodeableConcept where
  coding : List Coding
deriving DecidableEq, Repr

/-- Identifier element `{system, value}`. -/
structure Identifier where
  system : String
  value : String
deriving DecidableEq, Repr

/-- Organization resource.  `endpoint` holds the `reference` string of each
entry of the `endpoint` array. -/
structure Organization where
  id : String
  type_ : List CodeableConcept
  endpoint : List String
deriving DecidableEq, Repr

/-- Endpoint resource.  `managingOrganization` is the `reference` string. -/
structure Endpoint where
  id : String
  address : String
  managingOrganization : Option String
deriving DecidableEq, Repr

/-- Extension element; `valueReference` is the `valueReference.reference`
string when the extension carries one. -/
structure Extension where
  url : String
  valueReference : Option String
deriving DecidableEq, Repr

/-- HealthcareService resource.  `meta` is the `meta.tag` array when the
resource carries a `meta` object (`none` models no `meta` at all — the
distinction matters because the instance-creation handler mutates a shared
`meta` object, see `postHealthcareService`). -/
structure HealthcareService where
  id : String
  providedBy : Option String
  active : Option Bool
  identifier : List Identifier
  extension : List Extension
  meta : Option (List Coding)
deriving DecidableEq, Repr

/-- One entry of `Consent.provision.actor`: the codings of `role.coding`
(empty when the role is absent) and the `reference.reference` string. -/
structure ConsentActor where
  roleCoding : List Coding
  reference : Option String
deriving DecidableEq, Repr

/-- Consent resource.  `patientIdentifier` is `patient.identifier`, already
normalised to its first element when the source receives an array.  `note`
stands for any additional updatable field (the repository test suite uses
`note` for exactly this). -/
structure Consent where
  id : String
  status : String
  patientIdentifier : Option Identifier
  provisionActor : List ConsentActor
  identifier : List Identifier
  extension : List Extension
  note : Option String
deriving DecidableEq, Repr

/-- In-memory FHIR store: one map per resource type, modelled as
insertion-ordered association lists keyed by `id`. -/
structure FHIRStore where
  organizations : List Organization
  endpoints : List Endpoint
  services : List HealthcareService
  consents : List Consent
deriving DecidableEq, Repr

/-- Lookup of an Organization by id (`store.get('Organization', id)`). -/
def FHIRStore.getOrganization (st : FHIRStore) (id : String) : Option Organization :=
  st.organizations.find? (fun o => o.id == id)

/-- Lookup of an Endpoint by id. -/
def FHIRStore.getEndpoint (st : FHIRStore) (id : String) : Option Endpoint :=
  st.endpoints.find? (fun e => e.id == id)

/-- Lookup of a HealthcareService by id. -/
def FHIRStore.getService (st : FHIRStore) (id : String) : Option HealthcareService :=
  st.services.find? (fun s => s.id == id)

/-- Lookup of a Consent by id. -/
def FHIRStore.getConsent (st : FHIRStore) (id : String) : Option Consent :=
  st.consents.find? (fun c => c.id == id)

/-- Insertion with `Map.set` semantics (overwrite on key collision, append
otherwise), as `FHIRStore.add` performs after generating a missing id. -/
def FHIRStore.addEndpoint (st : FHIRStore) (e : Endpoint) : FHIRStore :=
  if st.endpoints.any (fun x => x.id == e.id) then
    { st with endpoints := st.endpoints.map (fun x => if x.id == e.id then e else x) }
  else { st with endpoints := st.endpoints ++ [e] }

/-- Insertion of a HealthcareService with `Map.set` semantics. -/
def FHIRStore.addService (st : FHIRStore) (s : HealthcareService) : FHIRStore :=
  if st.services.any (fun x => x.id == s.id) then
    { st with services := st.services.map (fun x => if x.id == s.id then s else x) }
  else { st with services := st.services ++ [s] }

/-- Replacement of an existing Consent (`FHIRStore.update`). -/
def FHIRStore.updateConsent (st : FHIRStore) (c : Consent) : FHIRStore :=
  { st with consents := st.consents.map (fun x => if x.id == c.id then c else x) }

/-- One entry of a token `fhirContext` array. -/
structure FhirCtxEntry where
  type_ : String
  identifier : Identifier
deriving DecidableEq, Repr

/-- Stored claims of an opaque access token (the `tokenData` object built by
`issueToken`, which is also the verbatim introspection response body).
`cnf` is the `x5t#S256` thumbprint when the `cnf` object is present. -/
structure TokenData where
  active : Bool
  sub : String
  scope : String
  iss : String
  aud : String
  client_id : String
  organization_id : String
  patient : Option String
  fhirContext : List FhirCtxEntry
  cnf : Option String
  exp : Nat
  iat : Nat
deriving DecidableEq, Repr

/-- The in-memory token map (`tokens` of store.js), an association list with
most-recent-first lookup so that `set` has overwrite semantics. -/
def TokenStore := List (String × TokenData)
deriving instance DecidableEq, Repr for TokenStore

/-- Lookup (`tokens.get`). -/
def TokenStore.get (ts : TokenStore) (tok : String) : Option TokenData :=
  ((List.find? (fun p => p.1 == tok) ts)).map (fun p => p.2)

/-- Insertion (`tokens.set`); fresh keys are prepended, which matches
overwrite semantics under `TokenStore.get`. -/
def TokenStore.set (ts : TokenStore) (tok : String) (d : TokenData) : TokenStore :=
  (tok, d) :: ts

/-- Deletion (`tokens.delete`). -/
def TokenStore.delete (ts : TokenStore) (tok : String) : TokenStore :=
  List.filter (fun p => p.1 != tok) ts

/-- Registered OAuth2 client record (store.js). -/
structure Client where
  clientId : String
  scopes : List String
  certPath : String
  organizationId : String
deriving DecidableEq, Repr

/-! ## fhir/context.js -/

/-- Catalog identifier system for HealthcareService resources. -/
def CATALOG_ID_SYSTEM : String :=
  "http://pcm.fhir.health.gov.il/identifier/pcm-healthcareservice-catalog-id"

/-- Find a catalog identifier on a HealthcareService (`findCatalogIdentifier`). -/
def findCatalogIdentifier : Option HealthcareService → Option Identifier
  | none => none
  | some s => s.identifier.find? (fun id => id.system == CATALOG_ID_SYSTEM)

/-- Build the `fhirContext` entry for a HealthcareService
(`buildHealthcareServiceContext`): catalog identifier of the service or of
the canonical, else falling back through the logical ids, with JavaScript
`||` (truthiness) chaining. -/
def buildHealthcareServiceContext (service canonicalService : Option HealthcareService) :
    Option FhirCtxEntry :=
  if service = none ∧ canonicalService = none then none
  else
    let catalogIdentifier :=
      match findCatalogIdentifier service with
      | some i => some i
      | none => findCatalogIdentifier canonicalService
    let v1 := (catalogIdentifier.map (fun i => i.value)).getD ""
    let v2 := if truthy v1 then v1 else (service.map (fun s => s.id)).getD ""
    let v3 := if truthy v2 then v2 else (canonicalService.map (fun s => s.id)).getD ""
    if ¬ truthy v3 then none
    else some ⟨"HealthcareService", ⟨CATALOG_ID_SYSTEM, v3⟩⟩

/-! ## routes/auth.js — token issuance

The handlers below are modelled after the `requireMtls` gate has passed
(a socket without a verified peer certificate is rejected with
`401 access_denied` before any handler logic runs and touches no state).
RS256 signature verification (`jwt.verify`) is an RSA computation outside
this embedding; its outcome for the request at hand is the oracle input
`sigOk`.  Certificate files read with `fs.readFileSync` are modelled by the
`certs` association list from path to PEM content; a missing entry models a
throwing read. -/

/-- Extension URLs used by auth.js. -/
def EXT_PCM_SERVICE : String :=
  "http://pcm.fhir.health.gov.il/StructureDefinition/ext-pcm-service"

/-- Extension URL linking an instance HealthcareService to its canonical. -/
def EXT_BASED_ON_CANONICAL : String :=
  "http://pcm.fhir.health.gov.il/StructureDefinition/ext-based-on-canonical-healthcareservice"

/-- Decoded `hl7-b2b` extension object of a client assertion. -/
structure B2BExt where
  organization_id : Option String
  consent_reference : List String
deriving DecidableEq, Repr

/-- Decoded client-assertion JWT.  `aud` lists the audience values (a JSON
string audience is a singleton list; `isAllowedAudience` treats both shapes
identically).  `""` in `sub` or `iss` models a missing claim. -/
structure Assertion where
  sub : String
  iss : String
  aud : List String
  hl7b2b : Option B2BExt
deriving DecidableEq, Repr

/-- Form body of a `/token` request.  `client_assertion = none` models the
parameter being absent or empty; `some none` models a value that
`jwt.decode` cannot parse; `resource = ""` models a missing parameter. -/
structure TokenRequest where
  grant_type : String
  client_assertion : Option (Option Assertion)
  client_assertion_type : String
  resource : String
  scope : String
deriving DecidableEq, Repr

/-- Request environment of a `/token` call: the registered clients, the
readable certificate files, the requested host, the raw DER of the mTLS peer
certificate when retrievable, and the `jwt.verify` oracle outcome. -/
structure AuthEnv where
  clients : List Client
  certs : List (String × String)
  host : String
  peerCertDer : Option (List Nat)
  sigOk : Bool
deriving DecidableEq, Repr

/-- Lookup of a certificate file by path (`fs.readFileSync`). -/
def lookupCert (certs : List (String × String)) (path : String) : Option String :=
  ((List.find? (fun p => p.1 == path) certs)).map (fun p => p.2)

/-- Audience admissibility (`isAllowedAudience`). -/
def isAllowedAudience (aud : List String) (allowed : List String) : Bool :=
  aud.any (fun a => allowed.contains a)

/-- Response of a `/token` call. -/
inductive TokenResult where
  | err (status : Nat) (error : String) (description : String)
  | ok (accessToken : String) (data : TokenData)
deriving DecidableEq, Repr

/-- Result of the whole `/token` handler: the HTTP response, the token store
afterwards, and the warning log lines emitted on the way (the source logs a
warning, and only a warning, on thumbprint mismatch). -/
structure IssueOutcome where
  result : TokenResult
  tokens : TokenStore
  warnings : List String
deriving DecidableEq, Repr

/-- Custodian-endpoint match of step 5.3: does any CST actor of the consent
reference an Organization one of whose endpoints has exactly the requested
`resource` URL as its address? -/
def consentResourceMatch (fhir : FHIRStore) (consent : Consent) (resource : String) : Bool :=
  let custodianActors := consent.provisionActor.filter
    (fun a => a.roleCoding.any (fun c => c.code == "CST"))
  custodianActors.any (fun actor =>
    match refLastSegment actor.reference with
    | none => false
    | some orgId =>
      match fhir.getOrganization orgId with
      | none => false
      | some org => org.endpoint.any (fun epRef =>
          match fhir.getEndpoint (lastSegment epRef) with
          | none => false
          | some ep => ep.address == resource))

/-- Actor-binding check of step 5.4: the client organization appears (under
any role) among the consent actors. -/
def consentHasActor (consent : Consent) (organizationId : String) : Bool :=
  consent.provisionActor.any
    (fun a => refLastSegment a.reference == some organizationId)

/-- Patient context extraction of step 5.2: `system|value` when the consent
carries a patient identifier with truthy system and value. -/
def consentPatientContext (consent : Consent) : Option String :=
  match consent.patientIdentifier with
  | none => none
  | some pid =>
      if truthy pid.system ∧ truthy pid.value then some (pid.system ++ "|" ++ pid.value)
      else none

/-- Steps 5.1–5.4 of `issueToken` (UDAP B2B validation and binding): either
an error response `(status, error, description)` or the patient context to
embed in the token.  Only the FIRST entry of `consent_reference` is ever
consulted (`udapExt.consent_reference?.[0]`). -/
def validateB2B (udap : B2BExt) (client : Client) (resource : String)
    (fhir : FHIRStore) : Except (Nat × String × String) (Option String) :=
  let claimedOrgId := refLastSegment udap.organization_id
  if claimedOrgId ≠ some client.organizationId then
    .error (401, "unauthorized_client", "Organization ID mismatch")
  else
    let consentRefUrl := udap.consent_reference.headD ""
    if ¬ truthy consentRefUrl then .ok none
    else
      match fhir.getConsent (lastSegment consentRefUrl) with
      | none => .error (400, "invalid_grant", "Consent not found")
      | some consent =>
        if consent.status ≠ "active" then
          .error (400, "invalid_grant", "Consent not active")
        else if ¬ consentResourceMatch fhir consent resource then
          .error (400, "invalid_target",
            "Requested resource is not authorized by the referenced consent")
        else if ¬ consentHasActor consent client.organizationId then
          .error (401, "access_denied", "Client is not a party to this consent")
        else .ok (consentPatientContext consent)

/-- Step 6 of `issueToken`: assemble the `fhirContext` array from the first
referenced consent and, through the `ext-pcm-service` extension, the
referenced HealthcareService and its canonical. -/
def buildFhirContext (udap : Option B2BExt) (fhir : FHIRStore) : List FhirCtxEntry :=
  match udap with
  | none => []
  | some u =>
    let cref := u.consent_reference.headD ""
    if ¬ truthy cref then []
    else
      match fhir.getConsent (lastSegment cref) with
      | none => []
      | some consent =>
        let bizId := consent.identifier.headD
          ⟨"http://pcm.fhir.health.gov.il/identifier/pcm-consent-id", consent.id⟩
        let base := [FhirCtxEntry.mk "Consent" bizId]
        match consent.extension.find? (fun e => e.url == EXT_PCM_SERVICE) with
        | none => base
        | some pcmServiceExt =>
          match pcmServiceExt.valueReference with
          | none => base
          | some svcRef =>
            match fhir.getService (lastSegment svcRef) with
            | none => base
            | some service =>
              let canonicalService :=
                ((service.extension.find? (fun e => e.url == EXT_BASED_ON_CANONICAL)).bind
                  (fun e => e.valueReference)).bind
                  (fun r => fhir.getService (lastSegment r))
              match buildHealthcareServiceContext (some service) canonicalService with
              | none => base
              | some ctx => base ++ [ctx]

/-- Fixed scope granted to B2B data-source access. -/
def DS_SCOPE : String :=
  "patient/Observation.rs?_security=http://fhir.health.gov.il/cs/hdp-information-buckets|laboratoryTests&date=ge2024-01-01"

/-- Steps 1–7 of the `POST /token` handler (`issueToken` of auth.js): the
HTTP response and the token store afterwards, as a function of the request,
the environment, the stores, the clock, and the uuid the source would draw
for the new opaque token.  The warning log line of the cnf block (step 5,
warn-only) is reattached by `issueToken` below: it is emitted exactly when
that block is reached, which is exactly when issuance succeeds, and the
`cnf` of a successful token is exactly the assertion-certificate thumbprint
the block compares. -/
def issueTokenResponse (req : TokenRequest) (env : AuthEnv) (fhir : FHIRStore)
    (tokens : TokenStore) (now : Nat) (newTokenId : String) :
    TokenResult × TokenStore :=
  -- 1. basic validation
  if req.grant_type ≠ "client_credentials" then
    (.err 400 "unsupported_grant_type" "", tokens)
  else if req.client_assertion_type ≠ "urn:ietf:params:oauth:client-assertion-type:jwt-bearer"
      ∨ req.client_assertion = none then
    (.err 401 "invalid_client" "Missing or invalid client_assertion", tokens)
  else if ¬ truthy req.resource then
    (.err 400 "invalid_request" "Missing resource parameter (RFC 8707)", tokens)
  else
    -- 2. decode assertion
    match req.client_assertion with
    | none => (.err 401 "invalid_client" "Missing or invalid client_assertion", tokens)
    | some none => (.err 401 "invalid_client" "Invalid JWT structure", tokens)
    | some (some a) =>
      if ¬ truthy a.sub ∨ ¬ truthy a.iss then
        (.err 401 "invalid_client" "Invalid JWT structure", tokens)
      else
        -- 3. find client (`iss` is the clientId)
        match env.clients.find? (fun c => c.clientId == a.iss) with
        | none => (.err 401 "invalid_client" "Client not registered", tokens)
        | some client =>
          -- 4. verify signature and audience/issuer
          match lookupCert env.certs client.certPath with
          | none => (.err 401 "invalid_client" "Signature verification failed", tokens)
          | some pem =>
            let tokenEndpointCandidates :=
              ["https://" ++ env.host ++ "/token", "http://" ++ env.host ++ "/token",
               "https://pcm-core:3000/token", "http://pcm-core:3000/token"]
            if a.sub ≠ a.iss then
              (.err 401 "invalid_client" "Invalid JWT subject/issuer", tokens)
            else if ¬ isAllowedAudience a.aud tokenEndpointCandidates then
              (.err 401 "invalid_client" "Invalid JWT audience", tokens)
            else if ¬ env.sigOk then
              (.err 401 "invalid_client" "Signature verification failed", tokens)
            else
              -- 5. UDAP B2B validation and actor binding
              let consentedScopes :=
                match a.hl7b2b with
                | none => "system/*.cruds"
                | some _ => DS_SCOPE
              let b2bOutcome :=
                match a.hl7b2b with
                | none => Except.ok none
                | some udap => validateB2B udap client req.resource fhir
              match b2bOutcome with
              | .error e => (.err e.1 e.2.1 e.2.2, tokens)
              | .ok patientContext =>
                -- 5. cnf (certificate confirmation, RFC 8705); the warn-only
                -- peer-thumbprint comparison is reattached by `issueToken`
                let cnf := some (certToX5tS256Pem pem)
                -- 6. fhirContext
                let fhirContext := buildFhirContext a.hl7b2b fhir
                -- 7. mint and store the opaque token
                let tokenData : TokenData :=
                  { active := true
                    sub := client.clientId
                    scope := if truthy consentedScopes then consentedScopes
                             else String.intercalate " " client.scopes
                    iss := "http://pcm.fhir.health.gov.il/"
                    aud := req.resource
                    client_id := client.clientId
                    organization_id := client.organizationId
                    patient := patientContext
                    fhirContext := fhirContext
                    cnf := cnf
                    exp := now + 30
                    iat := now }
                (.ok newTokenId tokenData, TokenStore.set tokens newTokenId tokenData)

/-- The full `POST /token` handler with its observable log output: the
response, the token store, and the warn-only peer-thumbprint comparison of
the cnf block (`logger.warn`, reached exactly on successful issuance, with
the issued `cnf` as the assertion-side thumbprint). -/
def issueToken (req : TokenRequest) (env : AuthEnv) (fhir : FHIRStore)
    (tokens : TokenStore) (now : Nat) (newTokenId : String) : IssueOutcome :=
  let r := issueTokenResponse req env fhir tokens now newTokenId
  let warnings :=
    match r.1 with
    | .ok _ data =>
      match data.cnf, env.peerCertDer.map certToX5tS256Der with
      | some assertionThumbprint, some peerThumbprint =>
          if assertionThumbprint ≠ peerThumbprint then
            ["Client assertion cert thumbprint does not match mTLS peer cert"]
          else []
      | _, _ => []
    | .err _ _ _ => []
  ⟨r.1, r.2, warnings⟩

/-! ## routes/auth.js — introspection -/

/-- Response of a `POST /introspect` call.  `record t` is the 200 response
whose body is the stored token record verbatim; `inactive` is the 200
response with body `{active: false}`. -/
inductive IntrospectResult where
  | authFail (status : Nat) (error : String)
  | forbidden (description : String)
  | missingToken
  | inactive
  | record (t : TokenData)
deriving DecidableEq, Repr

/-- Whether an introspection response reports `active: true`: the verbatim
record carries its stored `active` flag, every other body reports false
(or no `active` at all, which a JSON consumer reads as false). -/
def IntrospectResult.reportsActive : IntrospectResult → Bool
  | .record t => t.active
  | _ => false

/-- The `introspectToken` handler body, given the already-authenticated
caller record `user` (`req.user`).  A first `endpoint` entry whose reference
does not name an existing Endpoint with a truthy address ends in the bare
403 — references of a different resource type can never produce an
`address` and land in the same branch. -/
def introspectToken (user : TokenData) (bodyToken : Option String)
    (fhir : FHIRStore) (tokens : TokenStore) (now : Nat) : IntrospectResult :=
  -- 2. identify the introspector address
  if ¬ truthy user.organization_id then .forbidden "Introspector identity unknown"
  else
    match fhir.getOrganization user.organization_id with
    | none => .forbidden "Introspector has no endpoint"
    | some org =>
      if org.endpoint.isEmpty then .forbidden "Introspector has no endpoint"
      else
        let parts := jsSplit (org.endpoint.headD "") '/' 
        let endpointRes :=
          if parts.headD "" == "Endpoint" then fhir.getEndpoint (parts.getD 1 "")
          else none
        match endpointRes with
        | none => .forbidden ""
        | some ep =>
          if ¬ truthy ep.address then .forbidden ""
          else
            -- 3. inspect the target token
            match bodyToken with
            | none => .missingToken
            | some tok =>
              if ¬ truthy tok then .missingToken
              else
                match TokenStore.get tokens tok with
                | none => .inactive
                | some t =>
                  if t.exp < now then .inactive
                  -- 4. audience check: token bound to a specific resource server
                  else if t.aud ≠ ep.address then .inactive
                  else .record t

/-- The full `POST /introspect` pipeline: the `requireAuth` bearer gate
(which deletes an expired introspector token from the store) followed by
`introspectToken`. -/
def postIntrospect (authHeader : Option String) (bodyToken : Option String)
    (fhir : FHIRStore) (tokens : TokenStore) (now : Nat) :
    IntrospectResult × TokenStore :=
  match authHeader with
  | none => (.authFail 401 "Unauthorized", tokens)
  | some h =>
    if ¬ jsStartsWith h "Bearer " then (.authFail 401 "Unauthorized", tokens)
    else
      let token := (jsSplit h ' ').getD 1 ""
      match TokenStore.get tokens token with
      | none => (.authFail 401 "Invalid Token", tokens)
      | some user =>
        if user.exp < now then (.authFail 401 "Token Expired", TokenStore.delete tokens token)
        else (introspectToken user bodyToken fhir tokens now, tokens)

/-! ## routes/fhir.js — resource handlers

Handlers below run after `requireMtls` and `requireBearer`; the
authenticated caller record is the `user` argument. -/

/-- Meta-tag system and codes for HealthcareService variants. -/
def META_TAG_SYSTEM : String := "http://pcm.fhir.health.gov.il/cs/pcm-meta-tag"

/-- Meta-tag code of catalog HealthcareService resources. -/
def META_TAG_CATALOG : String := "catalog"

/-- Meta-tag code of instance HealthcareService resources. -/
def META_TAG_INSTANCE : String := "instance"

/-- Organization-type system holding the PCM admin marker. -/
def PCM_ORG_TYPE_SYSTEM : String := "http://fhir.health.gov.il/cs/pcm-org-type"

/-- Organization-type code of the PCM admin organization. -/
def PCM_ORG_TYPE_CODE : String := "pcm"

/-- Admin test (`isPcmAdmin`): the caller organization exists in the store
and carries the `pcm` organization type. -/
def isPcmAdmin (fhir : FHIRStore) (user : Option TokenData) : Bool :=
  match user with
  | none => false
  | some u =>
    if ¬ truthy u.organization_id then false
    else
      match fhir.getOrganization u.organization_id with
      | none => false
      | some org => org.type_.any (fun t => t.coding.any
          (fun c => c.system == PCM_ORG_TYPE_SYSTEM && c.code == PCM_ORG_TYPE_CODE))

/-- Party test of the Consent handlers: some actor references the caller
either as `Organization/<id>` or as the bare id. -/
def consentIsParty (actors : List ConsentActor) (callerOrgId : String) : Bool :=
  actors.any (fun a =>
    match a.reference with
    | none => false
    | some r => r == "Organization/" ++ callerOrgId || r == callerOrgId)

/-- Requester test of the Consent update handler: an actor with role code
`IRCP` references the caller. -/
def consentIsRequester (actors : List ConsentActor) (callerOrgId : String) : Bool :=
  actors.any (fun a =>
    a.roleCoding.any (fun c => c.code == "IRCP") &&
    (match a.reference with
     | none => false
     | some r => r == "Organization/" ++ callerOrgId || r == callerOrgId))

/-- Response of a `PUT /r4/Consent/:id` call. -/
inductive ConsentPutResult where
  | notFound
  | idMismatch
  | forbidden (diagnostics : String)
  | ok (body : Consent)
deriving DecidableEq, Repr

/-- The `PUT /r4/Consent/:id` handler.  A non-admin party with the IRCP role
submitting `status = "inactive"` flips the STORED consent to inactive and
returns it; every other submitted field difference is silently discarded
(the handler updates `existing`, not the request body). -/
def putConsent (user : TokenData) (idParam : String) (body : Consent)
    (fhir : FHIRStore) : ConsentPutResult × FHIRStore :=
  match fhir.getConsent idParam with
  | none => (.notFound, fhir)
  | some existing =>
    if truthy body.id ∧ body.id ≠ idParam then (.idMismatch, fhir)
    else
      let updated := { body with id := idParam }
      if isPcmAdmin fhir (some user) then
        (.ok updated, fhir.updateConsent updated)
      else
        let callerOrgId := user.organization_id
        let actors := existing.provisionActor
        if ¬ consentIsParty actors callerOrgId then
          (.forbidden "Access denied to this consent", fhir)
        else if ¬ consentIsRequester actors callerOrgId ∨ updated.status ≠ "inactive" then
          (.forbidden "Only requestor may set status=inactive", fhir)
        else
          let newConsent := { existing with status := "inactive" }
          (.ok newConsent, fhir.updateConsent newConsent)

/-- Body of a `POST /r4/Endpoint` request (`""` id models an absent id that
`FHIRStore.add` replaces with a fresh uuid). -/
structure EndpointBody where
  resourceType : String
  id : String
  address : String
  managingOrganization : Option String
deriving DecidableEq, Repr

/-- Response of a `POST /r4/Endpoint` call. -/
inductive EndpointPostResult where
  | invalid
  | forbidden (diagnostics : String)
  | created (resource : Endpoint)
deriving DecidableEq, Repr

/-- The `POST /r4/Endpoint` handler.  Non-admin callers must manage the new
endpoint themselves; NO uniqueness check over `address` is performed. -/
def postEndpoint (user : TokenData) (body : Option EndpointBody)
    (fhir : FHIRStore) (freshId : String) : EndpointPostResult × FHIRStore :=
  match body with
  | none => (.invalid, fhir)
  | some ep =>
    if ep.resourceType ≠ "Endpoint" then (.invalid, fhir)
    else
      let proceed :=
        if isPcmAdmin fhir (some user) then true
        else
          match getRefId ep.managingOrganization with
          | none => false
          | some managingOrgId => managingOrgId == user.organization_id
      if ¬ proceed then
        (.forbidden "Endpoint managingOrganization must match caller organization", fhir)
      else
        let created : Endpoint :=
          { id := if truthy ep.id then ep.id else freshId
            address := ep.address
            managingOrganization := ep.managingOrganization }
        (.created created, fhir.addEndpoint created)

/-- Body of a `POST /r4/HealthcareService` request. -/
structure ServiceBody where
  resourceType : String
  id : String
  providedBy : Option String
  active : Option Bool
  identifier : List Identifier
  extension : List Extension
  meta : Option (List Coding)
deriving DecidableEq, Repr

/-- Response of a `POST /r4/HealthcareService` call. -/
inductive ServicePostResult where
  | invalid
  | forbidden (diagnostics : String)
  | created (resource : HealthcareService)
deriving DecidableEq, Repr

/-- Catalog meta tag pushed onto auto-created canonicals. -/
def catalogTag : Coding := ⟨META_TAG_SYSTEM, META_TAG_CATALOG, some "Catalog"⟩

/-- Instance meta tag pushed onto instance resources. -/
def instanceTag : Coding := ⟨META_TAG_SYSTEM, META_TAG_INSTANCE, some "Instance"⟩

/-- Whether a tag list marks a catalog resource. -/
def hasCatalogTag (tags : List Coding) : Bool :=
  tags.any (fun t => t.system == META_TAG_SYSTEM && t.code == META_TAG_CATALOG)

/-- The `POST /r4/HealthcareService` handler.  The source builds the
auto-created canonical by object spread (`{...instance}`), so when the body
carries a `meta` object the canonical and the instance SHARE it: the tag
array finally assigned to the shared object — the instance tags — is what
both stored copies expose, and the catalog tag pushed earlier is filtered
away again.  The same spread shares the `extension` array, so the
`basedOnCanonical` link pushed for the instance also appears on the stored
canonical whenever the body carried a non-empty extension array.  The
embedding reproduces these final stored values.  (A literal empty `extension`
array in the body is indistinguishable here from an absent one; the source
would share the empty array in that corner.)  `freshCatalogValue`,
`freshCanonicalId` and `freshInstanceId` are the uuids the source would
draw, in that order of use. -/
def postHealthcareService (user : TokenData) (body : Option ServiceBody)
    (fhir : FHIRStore) (freshCatalogValue freshCanonicalId freshInstanceId : String) :
    ServicePostResult × FHIRStore :=
  match body with
  | none => (.invalid, fhir)
  | some incoming =>
    if incoming.resourceType ≠ "HealthcareService" then (.invalid, fhir)
    else if isPcmAdmin fhir (some user) then
      let svc : HealthcareService :=
        { id := if truthy incoming.id then incoming.id else freshInstanceId
          providedBy := incoming.providedBy
          active := incoming.active
          identifier := incoming.identifier
          extension := incoming.extension
          meta := incoming.meta }
      (.created svc, fhir.addService svc)
    else
      let metaTags := incoming.meta.getD []
      if hasCatalogTag metaTags then
        let svc : HealthcareService :=
          { id := if truthy incoming.id then incoming.id else freshInstanceId
            providedBy := incoming.providedBy
            active := incoming.active
            identifier := incoming.identifier
            extension := incoming.extension
            meta := incoming.meta }
        (.created svc, fhir.addService svc)
      else
        let callerOrgId := user.organization_id
        if ¬ truthy callerOrgId then
          (.forbidden "Caller has no mapped Organization", fhir)
        else
          let providedBy := some ("Organization/" ++ callerOrgId)
          let instanceId := if truthy incoming.id then incoming.id else freshInstanceId
          match incoming.extension.find? (fun e => e.url == EXT_BASED_ON_CANONICAL) with
          | some _ =>
            -- an explicit canonical link: no canonical is auto-created
            let instance_ : HealthcareService :=
              { id := instanceId
                providedBy := providedBy
                active := some (incoming.active.getD false)
                identifier := incoming.identifier
                extension := incoming.extension
                meta := some ((incoming.meta.getD []).filter
                    (fun t => t.code ≠ META_TAG_CATALOG) ++ [instanceTag]) }
            (.created instance_, fhir.addService instance_)
          | none =>
            let basedOnExt : Extension :=
              ⟨EXT_BASED_ON_CANONICAL, some ("HealthcareService/" ++ freshCanonicalId)⟩
            -- tag array finally held by the (possibly shared) meta object
            let sharedTags (t : List Coding) : List Coding :=
              (t.filter (fun x => x.code ≠ META_TAG_INSTANCE) ++ [catalogTag]).filter
                (fun x => x.code ≠ META_TAG_CATALOG) ++ [instanceTag]
            let canonicalMeta :=
              match incoming.meta with
              | none => some [catalogTag]          -- fresh object, unshared
              | some t => some (sharedTags t)      -- shared object, final value
            let instanceMeta :=
              match incoming.meta with
              | none => some [instanceTag]
              | some t => some (sharedTags t)
            let canonicalExtension :=
              if incoming.extension = [] then [] else incoming.extension ++ [basedOnExt]
            let canonical : HealthcareService :=
              { id := freshCanonicalId
                providedBy := none
                active := some true
                identifier :=
                  if incoming.identifier = [] then
                    [⟨CATALOG_ID_SYSTEM, "PCM-CAT-" ++ freshCatalogValue⟩]
                  else incoming.identifier
                extension := canonicalExtension
                meta := canonicalMeta }
            let instance_ : HealthcareService :=
              { id := instanceId
                providedBy := providedBy
                active := some (incoming.active.getD false)
                identifier := incoming.identifier
                extension := incoming.extension ++ [basedOnExt]
                meta := instanceMeta }
            (.created instance_, (fhir.addService canonical).addService instance_)

/-! ## ds-auth-adapter — identity mapping (mapper.js)

The minted local JWT is represented by its payload; HMAC-SHA256 signing
wraps the payload without altering it and stays outside the embedding. -/

/-- Payload of the local JWT minted by the PEP.  The source also copies a
`jti` field from the introspection result, which that result never carries;
the perpetually absent field is omitted. -/
structure LocalPayload where
  sub : String
  scope : String
  iss : String
  aud : String
  iat : Nat
  client_id : String
  fhirContext : List FhirCtxEntry
  cnf : Option String
  patient : String
deriving DecidableEq, Repr

/-- The `mapIdentity` function: map the global patient context of an
introspection result to a local hashed subject, or throw. -/
def mapIdentity (r : TokenData) : Except String LocalPayload :=
  if ¬ r.active then .error "Token is not active"
  else
    match r.patient with
    | none => .error "Missing mandatory patient context"
    | some patientContext =>
      if ¬ truthy patientContext then .error "Missing mandatory patient context"
      else if jsContains patientContext '|' then
        let value := (jsSplit patientContext '|').getD 1 ""
        let hash := hexEncode (sha256 (utf8Encode value))
        .ok { sub := r.client_id
              scope := r.scope
              iss := r.iss
              aud := r.aud
              iat := r.iat
              client_id := r.client_id
              fhirContext := r.fhirContext
              cnf := r.cnf
              patient := "Patient/" ++ hash }
      else .error "Invalid patient identifier format"

/-! ## ds-auth-adapter — the auth-check endpoint (index.js)

The PEP keeps one mutable cache, `introspectionToken`.  Outbound HTTP is
modelled by two oracles: `tokenEndpoint` is what one `POST /token` call to
PCM would yield (an access token, or a thrown axios error with the given
response status), and `introspectEndpoint` maps the bearer token used to
what the one `POST /introspect` call would yield.  SMART discovery only
selects URLs for those calls and is folded into the oracles.  The outcome
records the calls actually made so that the retry discipline is visible. -/

/-- One outbound call to PCM made during an auth-check. -/
inductive PcmCall where
  | token
  | introspect (accessToken : String)
deriving DecidableEq, Repr

/-- Observable outcome of a `GET /auth-check`: response status, the
`X-Local-Token` payload on success, the cache afterwards, and the outbound
calls made in order. -/
structure AuthCheckOutcome where
  status : Nat
  localToken : Option LocalPayload
  cache : Option String
  calls : List PcmCall
deriving DecidableEq, Repr

/-- Tail of `handleAuthCheck` once an access token is at hand: introspect,
check the thumbprint (warn only), map the identity, mint.  A thrown axios
error with status 401 or 403 clears the cache; a `mapIdentity` throw has no
`response` and leaves the cache alone. -/
def authCheckWithToken (accessToken : String) (cache : Option String)
    (calls : List PcmCall) (introspectEndpoint : String → Except Nat TokenData) :
    AuthCheckOutcome :=
  let calls := calls ++ [PcmCall.introspect accessToken]
  match introspectEndpoint accessToken with
  | .error s =>
      ⟨401, none, if s = 401 ∨ s = 403 then none else cache, calls⟩
  | .ok data =>
      if ¬ data.active then ⟨401, none, cache, calls⟩
      else
        match mapIdentity data with
        | .error _ => ⟨401, none, cache, calls⟩
        | .ok payload => ⟨200, some payload, cache, calls⟩

/-- The `GET /auth-check` handler (`handleAuthCheck`), starting from the
current cache.  `getIntrospectionToken` returns the cache when set and
otherwise makes one token call; NO further token call happens within the
same request whatever the introspection answers. -/
def handleAuthCheck (authHeader : Option String) (cache : Option String)
    (tokenEndpoint : Except Nat String)
    (introspectEndpoint : String → Except Nat TokenData) : AuthCheckOutcome :=
  match authHeader with
  | none => ⟨401, none, cache, []⟩
  | some h =>
    if ¬ jsStartsWith h "Bearer " then ⟨401, none, cache, []⟩
    else
      match cache with
      | some tok => authCheckWithToken tok (some tok) [] introspectEndpoint
      | none =>
        match tokenEndpoint with
        | .error _ =>
            -- the fetch threw before any token was cached; the catch leaves
            -- the (already empty) cache empty and answers 401
            ⟨401, none, none, [PcmCall.token]⟩
        | .ok newTok => authCheckWithToken newTok (some newTok) [PcmCall.token] introspectEndpoint

/-- Whether a token response is a successful issuance. -/
def TokenResult.isOk : TokenResult → Bool
  | .ok _ _ => true
  | .err _ _ _ => false

/-! ## Concrete fixtures

Small concrete instances of the data model, used by the witnesses and
counterexamples below.  They mirror the bootstrap seed of the repository
(`org-sp` service provider, `org-vaccine-repo` data source with one
endpoint, `org-pcm-system` admin). -/

namespace Fix

/-- A tiny syntactically valid PEM body (DER bytes 0,1,2). -/
def pemSp : String := "-----BEGIN CERTIFICATE-----\nAAEC\n-----END CERTIFICATE-----"

/-- The registered service-provider client. -/
def clientSp : Client :=
  ⟨"http://pcm.fhir.health.gov.il/Organization/org-sp",
   ["fhir/Consent.write", "fhir/Patient.read"], "/app/certs/sp-client.crt", "org-sp"⟩

/-- Readable certificate files. -/
def certs : List (String × String) := [("/app/certs/sp-client.crt", pemSp)]

/-- The PCM admin organization. -/
def orgPcm : Organization :=
  ⟨"org-pcm-system", [⟨[⟨PCM_ORG_TYPE_SYSTEM, "pcm", none⟩]⟩], []⟩

/-- The service-provider organization. -/
def orgSp : Organization :=
  ⟨"org-sp", [⟨[⟨PCM_ORG_TYPE_SYSTEM, "service-provider", none⟩]⟩], []⟩

/-- The data-source organization, owning one endpoint. -/
def orgDs : Organization :=
  ⟨"org-vaccine-repo", [⟨[⟨PCM_ORG_TYPE_SYSTEM, "source", none⟩]⟩],
   ["Endpoint/endpoint-ds"]⟩

/-- The data-source endpoint. -/
def epDs : Endpoint :=
  ⟨"endpoint-ds", "https://ds-gateway:8080/fhir", some "Organization/org-vaccine-repo"⟩

/-- The IRCP participation-type coding. -/
def ircpCoding : Coding :=
  ⟨"http://terminology.hl7.org/CodeSystem/v3-ParticipationType", "IRCP", none⟩

/-- The CST participation-type coding. -/
def cstCoding : Coding :=
  ⟨"http://terminology.hl7.org/CodeSystem/v3-ParticipationType", "CST", none⟩

/-- An active consent naming `org-sp` as IRCP requester and the data source
as CST custodian, for patient `sys|123`. -/
def consentOk : Consent :=
  ⟨"c1", "active", some ⟨"sys", "123"⟩,
   [⟨[ircpCoding], some "Organization/org-sp"⟩,
    ⟨[cstCoding], some "Organization/org-vaccine-repo"⟩],
   [], [], none⟩

/-- An inactive consent. -/
def consentInactive : Consent := ⟨"c2", "inactive", none, [], [], [], none⟩

/-- An active consent in which `org-sp` does NOT appear: the requester is a
different organization, the custodian is the data source. -/
def consentNoSp : Consent :=
  ⟨"c3", "active", some ⟨"sys", "123"⟩,
   [⟨[ircpCoding], some "Organization/org-hospital-b-sp"⟩,
    ⟨[cstCoding], some "Organization/org-vaccine-repo"⟩],
   [], [], none⟩

/-- Store holding both organizations, the endpoint, and the consents. -/
def fhir : FHIRStore :=
  ⟨[orgPcm, orgSp, orgDs], [epDs], [], [consentOk, consentInactive, consentNoSp]⟩

/-- A well-formed client assertion for `clientSp`, without a B2B extension. -/
def assertionPlain : Assertion :=
  { sub := clientSp.clientId, iss := clientSp.clientId,
    aud := ["https://pcm-core:3000/token"], hl7b2b := none }

/-- B2B extension referencing the single active consent. -/
def b2bOk : B2BExt :=
  ⟨some "http://pcm.fhir.health.gov.il/Organization/org-sp", ["Consent/c1"]⟩

/-- B2B extension referencing the active consent first and the inactive
consent second. -/
def b2bTwo : B2BExt :=
  ⟨some "http://pcm.fhir.health.gov.il/Organization/org-sp",
   ["Consent/c1", "Consent/c2"]⟩

/-- B2B extension referencing the consent that does not name `org-sp`. -/
def b2bNoActor : B2BExt :=
  ⟨some "http://pcm.fhir.health.gov.il/Organization/org-sp", ["Consent/c3"]⟩

/-- Token request template for `clientSp` targeting the DS endpoint. -/
def tokenReq (ext : Option B2BExt) (resource : String) : TokenRequest :=
  { grant_type := "client_credentials"
    client_assertion := some (some { assertionPlain with hl7b2b := ext })
    client_assertion_type := "urn:ietf:params:oauth:client-assertion-type:jwt-bearer"
    resource := resource
    scope := "" }

/-- Request environment with a verified signature and no peer cert. -/
def env : AuthEnv :=
  { clients := [clientSp], certs := certs, host := "pcm-core:3000",
    peerCertDer := none, sigOk := true }

/-- The introspector token of the data-source PEP: note that its scope is
the PCM default `system/*.cruds` (the string the source actually stores for
the PEP), not `introspection`. -/
def introspectorToken : TokenData :=
  { active := true, sub := "http://pcm.fhir.health.gov.il/Organization/org-vaccine-repo",
    scope := "system/*.cruds", iss := "http://pcm.fhir.health.gov.il/",
    aud := "https://pcm-core:3000", client_id := "http://pcm.fhir.health.gov.il/Organization/org-vaccine-repo",
    organization_id := "org-vaccine-repo", patient := none, fhirContext := [],
    cnf := none, exp := 5000, iat := 970 }

/-- A target token audience-bound to the DS endpoint. -/
def targetToken : TokenData :=
  { active := true, sub := clientSp.clientId, scope := DS_SCOPE,
    iss := "http://pcm.fhir.health.gov.il/", aud := "https://ds-gateway:8080/fhir",
    client_id := clientSp.clientId, organization_id := "org-sp",
    patient := some "sys|123", fhirContext := [], cnf := none,
    exp := 2000, iat := 1000 }

/-- Token store holding the introspector bearer and the target token. -/
def tokens : TokenStore := [("atok", introspectorToken), ("ttok", targetToken)]

/-- A PCM that answers 401 to the stale cached introspection bearer and the
full active target record to any fresh one. -/
def staleOracle : String → Except Nat TokenData :=
  fun t => if t = "stale" then .error 401 else .ok targetToken

/-- An authenticated caller bound to `org-sp` (not a PCM admin). -/
def spUser : TokenData :=
  { active := true, sub := clientSp.clientId, scope := "system/*.cruds",
    iss := "http://pcm.fhir.health.gov.il/", aud := "https://pcm-core:3000",
    client_id := clientSp.clientId, organization_id := "org-sp", patient := none,
    fhirContext := [], cnf := none, exp := 5000, iat := 970 }

/-- An authenticated caller bound to the PCM admin organization. -/
def pcmUser : TokenData :=
  { active := true, sub := "pcm-core", scope := "system/*.cruds",
    iss := "http://pcm.fhir.health.gov.il/", aud := "https://pcm-core:3000",
    client_id := "pcm-core", organization_id := "org-pcm-system", patient := none,
    fhirContext := [], cnf := none, exp := 5000, iat := 970 }

/-- A store holding only the admin organization. -/
def fhirAdminOnly : FHIRStore := ⟨[orgPcm], [], [], []⟩

/-- An address two Endpoint bodies will share. -/
def dupAddr : String := "https://dup.example/fhir"

/-- Endpoint request body with a given id and the shared address. -/
def epBody (id : String) : EndpointBody :=
  ⟨"Endpoint", id, dupAddr, some "Organization/org-pcm-system"⟩

/-- The first stored duplicate-address endpoint. -/
def epDup1 : Endpoint := ⟨"ep1", dupAddr, some "Organization/org-pcm-system"⟩

/-- The second stored duplicate-address endpoint. -/
def epDup2 : Endpoint := ⟨"ep2", dupAddr, some "Organization/org-pcm-system"⟩

/-- A non-admin HealthcareService body carrying a `meta` object with one
unrelated tag (neither `catalog` nor `instance`). -/
def svcBodyMeta : ServiceBody :=
  ⟨"HealthcareService", "inst-1", none, none, [], [], some [⟨"urn:x", "other", none⟩]⟩

/-- A non-admin HealthcareService body with no `meta` and no identifier. -/
def svcBodyPlain : ServiceBody :=
  ⟨"HealthcareService", "inst-1", none, none, [], [], none⟩

/-- The token record that `issueTokenResponse` mints for `tokenReq b2bOk`
against `fhir` at time 1000. -/
def issuedData : TokenData :=
  { active := true, sub := clientSp.clientId, scope := DS_SCOPE,
    iss := "http://pcm.fhir.health.gov.il/", aud := "https://ds-gateway:8080/fhir",
    client_id := clientSp.clientId, organization_id := "org-sp",
    patient := some "sys|123",
    fhirContext := [⟨"Consent",
      ⟨"http://pcm.fhir.health.gov.il/identifier/pcm-consent-id", "c1"⟩⟩],
    cnf := some (certToX5tS256Pem pemSp), exp := 1030, iat := 1000 }

end Fix

/-! ## Theorems -/

/-- C1: for every `POST /introspect` request by an authenticated caller
whose organization resolves to an Endpoint, the response reports
`active: true` if and only if the submitted token exists in the in-memory
token store, its `exp` is not earlier than the current time, and its `aud`
equals the address of the caller organization Endpoint; when active, the
full stored token record is returned verbatim, and otherwise the body is
`{active: false}`. -/
theorem introspection_active_iff
    (user : TokenData) (tok epRef epId : String) (fhir : FHIRStore)
    (tokens : TokenStore) (now : Nat) (org : Organization)
    (rest : List String) (ep : Endpoint)
    (hOrgId : truthy user.organization_id = true)
    (hOrg : fhir.getOrganization user.organization_id = some org)
    (hEp : org.endpoint = epRef :: rest)
    (hParts : jsSplit epRef '/' = ["Endpoint", epId])
    (hEpRes : fhir.getEndpoint epId = some ep)
    (hAddr : truthy ep.address = true)
    (hTok : truthy tok = true)
    (hActive : (TokenStore.get tokens tok).all (fun t => t.active) = true) :
    (∀ t, TokenStore.get tokens tok = some t → ¬ t.exp < now → t.aud = ep.address →
      introspectToken user (some tok) fhir tokens now = .record t) ∧
    ((introspectToken user (some tok) fhir tokens now).reportsActive = true ↔
      ∃ t, TokenStore.get tokens tok = some t ∧ ¬ t.exp < now ∧ t.aud = ep.address) ∧
    ((introspectToken user (some tok) fhir tokens now).reportsActive = false →
      introspectToken user (some tok) fhir tokens now = .inactive) := by
  have hred : introspectToken user (some tok) fhir tokens now =
      (match TokenStore.get tokens tok with
       | none => .inactive
       | some t =>
         if t.exp < now then .inactive
         else if t.aud = ep.address then .record t else .inactive) := by
    unfold introspectToken
    simp only [hOrgId, hOrg, hEp, List.headD_cons, hParts]
    simp [hParts, hEpRes, hAddr, hTok]
  rcases hget : TokenStore.get tokens tok with _ | t
  · simp only [hget] at hred hActive
    refine ⟨?_, ?_, ?_⟩
    · intro t h
      exact absurd h (by simp)
    · rw [hred]
      simp [IntrospectResult.reportsActive]
    · intro _
      exact hred
  · simp only [hget, Option.all] at hred hActive
    refine ⟨?_, ?_, ?_⟩
    · intro t' h h2 h3
      injection h with h
      subst h
      rw [hred, if_neg h2, if_pos h3]
    · rw [hred]
      by_cases hexp : t.exp < now
      · rw [if_pos hexp]
        simp only [IntrospectResult.reportsActive]
        constructor
        · intro h; cases h
        · rintro ⟨t', h', h2, _⟩
          injection h' with h'
          subst h'
          exact absurd hexp h2
      · rw [if_neg hexp]
        by_cases haud : t.aud = ep.address
        · rw [if_pos haud]
          simp only [IntrospectResult.reportsActive, hActive]
          exact ⟨fun _ => ⟨t, rfl, hexp, haud⟩, fun _ => trivial⟩
        · rw [if_neg haud]
          simp only [IntrospectResult.reportsActive]
          constructor
          · intro h; cases h
          · rintro ⟨t', h', _, h3⟩
            injection h' with h'
            subst h'
            exact absurd h3 haud
    · intro hfalse
      rw [hred] at hfalse ⊢
      by_cases hexp : t.exp < now
      · rw [if_pos hexp]
      · rw [if_neg hexp] at hfalse ⊢
        by_cases haud : t.aud = ep.address
        · rw [if_pos haud] at hfalse
          simp [IntrospectResult.reportsActive, hActive] at hfalse
        · rw [if_neg haud]

/-- C1 witness: the data-source introspector resolving to its endpoint, a
stored target token bound to that endpoint address, evaluated concretely. -/
theorem introspection_active_iff_witness :
    (∀ t, TokenStore.get Fix.tokens "ttok" = some t → ¬ t.exp < 1500 →
        t.aud = Fix.epDs.address →
      introspectToken Fix.introspectorToken (some "ttok") Fix.fhir Fix.tokens 1500 =
        .record t) ∧
    ((introspectToken Fix.introspectorToken (some "ttok") Fix.fhir Fix.tokens
        1500).reportsActive = true ↔
      ∃ t, TokenStore.get Fix.tokens "ttok" = some t ∧ ¬ t.exp < 1500 ∧
        t.aud = Fix.epDs.address) ∧
    ((introspectToken Fix.introspectorToken (some "ttok") Fix.fhir Fix.tokens
        1500).reportsActive = false →
      introspectToken Fix.introspectorToken (some "ttok") Fix.fhir Fix.tokens 1500 =
        .inactive) :=
  introspection_active_iff Fix.introspectorToken "ttok" "Endpoint/endpoint-ds"
    "endpoint-ds" Fix.fhir Fix.tokens 1500 Fix.orgDs [] Fix.epDs
    (by decide) (by decide) (by decide) (by decide) (by decide) (by decide)
    (by decide) (by decide)

/-- Helper: a successful B2B validation implies the first referenced consent
exists, is active, passes the resource binding, and names the client
organization as an actor. -/
theorem validateB2B_ok_extract
    (udap : B2BExt) (client : Client) (resource : String) (fhir : FHIRStore)
    (cref : String) (pc : Option String)
    (hCref : udap.consent_reference.headD "" = cref)
    (hTruthy : truthy cref = true)
    (h : validateB2B udap client resource fhir = .ok pc) :
    ∃ consent, fhir.getConsent (lastSegment cref) = some consent ∧
      consent.status = "active" ∧
      consentResourceMatch fhir consent resource = true ∧
      consentHasActor consent client.organizationId = true := by
  unfold validateB2B at h
  rw [hCref] at h
  simp only [hTruthy] at h
  split at h
  · exact absurd h (by simp)
  · split at h
    · simp_all
    · split at h
      · exact absurd h (by simp)
      · rename_i consent hconsent
        split at h
        · exact absurd h (by simp)
        · rename_i hstatus
          split at h
          · exact absurd h (by simp)
          · rename_i hmatch
            split at h
            · exact absurd h (by simp)
            · rename_i hactor
              exact ⟨consent, hconsent, not_not.mp hstatus,
                not_not.mp hmatch, not_not.mp hactor⟩

/-- C2 (amended): for every token successfully issued from a `/token`
request whose client assertion carries an `hl7-b2b` extension with a
truthy FIRST `consent_reference` entry, that first referenced consent has
`status = active` at issuance, the client bound organization appears in its
`provision.actor`, and the token `aud` equals the address of some Endpoint
owned by a CST actor of that first consent.  (Entries after the first are
never consulted — see the counterexample.) -/
theorem b2b_token_first_consent_binding
    (req : TokenRequest) (env : AuthEnv) (fhir : FHIRStore) (tokens : TokenStore)
    (now : Nat) (nid : String) (a : Assertion) (udap : B2BExt) (cref tok : String)
    (data : TokenData)
    (hA : req.client_assertion = some (some a))
    (hB2B : a.hl7b2b = some udap)
    (hCref : udap.consent_reference.headD "" = cref)
    (hTruthy : truthy cref = true)
    (hOk : (issueTokenResponse req env fhir tokens now nid).1 = .ok tok data) :
    ∃ client consent,
      env.clients.find? (fun c => c.clientId == a.iss) = some client ∧
      fhir.getConsent (lastSegment cref) = some consent ∧
      consent.status = "active" ∧
      consentHasActor consent client.organizationId = true ∧
      consentResourceMatch fhir consent data.aud = true := by
  unfold issueTokenResponse at hOk
  simp only [hA, hB2B] at hOk
  split at hOk
  · exact absurd hOk (by simp)
  · split at hOk
    · exact absurd hOk (by simp)
    · split at hOk
      · exact absurd hOk (by simp)
      · split at hOk
        · exact absurd hOk (by simp)
        · split at hOk
          · exact absurd hOk (by simp)
          · rename_i client hclient
            split at hOk
            · exact absurd hOk (by simp)
            · rename_i pem hpem
              split at hOk
              · exact absurd hOk (by simp)
              · split at hOk
                · exact absurd hOk (by simp)
                · split at hOk
                  · exact absurd hOk (by simp)
                  · split at hOk
                    · exact absurd hOk (by simp)
                    · rename_i pc hb2bok
                      simp only [Prod.fst] at hOk
                      injection hOk with hOk1 hOk2
                      obtain ⟨consent, hconsent, hstatus, hmatch, hactor⟩ :=
                        validateB2B_ok_extract udap client req.resource fhir cref pc
                          hCref hTruthy hb2bok
                      refine ⟨client, consent, hclient, hconsent, hstatus, hactor, ?_⟩
                      have : data.aud = req.resource := by rw [← hOk2]
                      rw [this]
                      exact hmatch

/-- C2 witness: the bindings hold concretely for the single-consent B2B
issuance against the seeded store. -/
theorem b2b_token_first_consent_binding_witness :
    ∃ client consent,
      Fix.env.clients.find? (fun c =>
        c.clientId == "http://pcm.fhir.health.gov.il/Organization/org-sp") = some client ∧
      Fix.fhir.getConsent (lastSegment "Consent/c1") = some consent ∧
      consent.status = "active" ∧
      consentHasActor consent client.organizationId = true ∧
      consentResourceMatch Fix.fhir consent Fix.issuedData.aud = true :=
  b2b_token_first_consent_binding
    (Fix.tokenReq (some Fix.b2bOk) "https://ds-gateway:8080/fhir") Fix.env Fix.fhir
    [] 1000 "tok-1" { Fix.assertionPlain with hl7b2b := some Fix.b2bOk } Fix.b2bOk
    "Consent/c1" "tok-1" Fix.issuedData (by decide) (by decide) (by decide)
    (by decide) (by decide)

/-- C2 counterexample: the claim quantifies over EVERY referenced consent,
but a `/token` request whose `consent_reference` lists the active consent
first and an inactive consent second is granted a token: the second entry
is never consulted, it is inactive at issuance, and the client organization
is not an actor of it. -/
theorem b2b_second_consent_ignored_counterexample :
    (issueTokenResponse (Fix.tokenReq (some Fix.b2bTwo) "https://ds-gateway:8080/fhir")
        Fix.env Fix.fhir [] 1000 "tok-1").1.isOk = true ∧
    Fix.b2bTwo.consent_reference = ["Consent/c1", "Consent/c2"] ∧
    Fix.fhir.getConsent "c2" = some Fix.consentInactive ∧
    Fix.consentInactive.status = "inactive" ∧
    consentHasActor Fix.consentInactive "org-sp" = false := by decide

/-- Helper: when the referenced consent is active but the client
organization is not among its actors, the B2B validation yields the
actor-binding error only if the resource binding passes, and the
resource-binding error otherwise — resource binding is checked first. -/
theorem validateB2B_actor_after_resource
    (udap : B2BExt) (client : Client) (resource : String) (fhir : FHIRStore)
    (cref : String) (consent : Consent)
    (hOrgMatch : refLastSegment udap.organization_id = some client.organizationId)
    (hCref : udap.consent_reference.headD "" = cref)
    (hTruthy : truthy cref = true)
    (hConsent : fhir.getConsent (lastSegment cref) = some consent)
    (hActive : consent.status = "active")
    (hNoActor : consentHasActor consent client.organizationId = false) :
    (consentResourceMatch fhir consent resource = true →
      validateB2B udap client resource fhir =
        .error (401, "access_denied", "Client is not a party to this consent")) ∧
    (consentResourceMatch fhir consent resource = false →
      validateB2B udap client resource fhir =
        .error (400, "invalid_target",
          "Requested resource is not authorized by the referenced consent")) := by
  constructor
  · intro hm
    unfold validateB2B
    rw [hCref]
    simp [hOrgMatch, hTruthy, hConsent, hActive, hm, hNoActor]
  · intro hm
    unfold validateB2B
    rw [hCref]
    simp [hOrgMatch, hTruthy, hConsent, hActive, hm, hNoActor]

/-- C3 (amended): a `/token` request passing all pre-checks, carrying an
`hl7-b2b` extension that references an active consent in whose
`provision.actor` the client bound organization does NOT appear, is
answered `401 access_denied` with description "Client is not a party to
this consent" whenever the requested resource matches a custodian-owned
Endpoint address of that consent; when the resource binding also fails,
the pipeline instead answers `400 invalid_target` — the resource binding
is checked BEFORE the actor binding, not after it as the spec orders the
pipeline. -/
theorem actor_binding_error_requires_resource_match
    (req : TokenRequest) (env : AuthEnv) (fhir : FHIRStore) (tokens : TokenStore)
    (now : Nat) (nid : String) (a : Assertion) (udap : B2BExt) (cref : String)
    (client : Client) (pem : String) (consent : Consent)
    (hGrant : req.grant_type = "client_credentials")
    (hCat : req.client_assertion_type = "urn:ietf:params:oauth:client-assertion-type:jwt-bearer")
    (hA : req.client_assertion = some (some a))
    (hRes : truthy req.resource = true)
    (hSub : truthy a.sub = true)
    (hIss : truthy a.iss = true)
    (hSubIss : a.sub = a.iss)
    (hClient : env.clients.find? (fun c => c.clientId == a.iss) = some client)
    (hCert : lookupCert env.certs client.certPath = some pem)
    (hAud : isAllowedAudience a.aud
      ["https://" ++ env.host ++ "/token", "http://" ++ env.host ++ "/token",
       "https://pcm-core:3000/token", "http://pcm-core:3000/token"] = true)
    (hSig : env.sigOk = true)
    (hB2B : a.hl7b2b = some udap)
    (hOrgMatch : refLastSegment udap.organization_id = some client.organizationId)
    (hCref : udap.consent_reference.headD "" = cref)
    (hTruthy : truthy cref = true)
    (hConsent : fhir.getConsent (lastSegment cref) = some consent)
    (hActive : consent.status = "active")
    (hNoActor : consentHasActor consent client.organizationId = false) :
    (consentResourceMatch fhir consent req.resource = true →
      (issueTokenResponse req env fhir tokens now nid).1 =
        .err 401 "access_denied" "Client is not a party to this consent") ∧
    (consentResourceMatch fhir consent req.resource = false →
      (issueTokenResponse req env fhir tokens now nid).1 =
        .err 400 "invalid_target"
          "Requested resource is not authorized by the referenced consent") := by
  have hv := validateB2B_actor_after_resource udap client req.resource fhir cref
    consent hOrgMatch hCref hTruthy hConsent hActive hNoActor
  constructor
  · intro hm
    have hb := hv.1 hm
    unfold issueTokenResponse
    simp [hGrant, hCat, hA, hRes, hSub, hIss, hSubIss, hClient, hCert, hAud,
      hSig, hB2B, hb]
  · intro hm
    have hb := hv.2 hm
    unfold issueTokenResponse
    simp [hGrant, hCat, hA, hRes, hSub, hIss, hSubIss, hClient, hCert, hAud,
      hSig, hB2B, hb]

/-- C3 witness: with the resource binding passing, the request referencing
the consent that does not name `org-sp` is answered `401 access_denied`. -/
theorem actor_binding_error_witness :
    (issueTokenResponse (Fix.tokenReq (some Fix.b2bNoActor) "https://ds-gateway:8080/fhir")
        Fix.env Fix.fhir [] 1000 "tok-1").1 =
      .err 401 "access_denied" "Client is not a party to this consent" :=
  (actor_binding_error_requires_resource_match
    (Fix.tokenReq (some Fix.b2bNoActor) "https://ds-gateway:8080/fhir") Fix.env
    Fix.fhir [] 1000 "tok-1" { Fix.assertionPlain with hl7b2b := some Fix.b2bNoActor }
    Fix.b2bNoActor "Consent/c3" Fix.clientSp Fix.pemSp Fix.consentNoSp
    (by decide) (by decide) (by decide) (by decide) (by decide) (by decide)
    (by decide) (by decide) (by decide) (by decide) (by decide) (by decide)
    (by decide) (by decide) (by decide) (by decide) (by decide) (by decide)).1
    (by decide)

/-- C3 counterexample: for a request whose referenced consent is active and
does not name the client organization as actor AND whose resource matches
no custodian-owned Endpoint, the server answers `400 invalid_target` — not
the `401 access_denied` the claim requires for every such request. -/
theorem actor_binding_order_counterexample :
    (issueTokenResponse (Fix.tokenReq (some Fix.b2bNoActor) "https://evil.example/fhir")
        Fix.env Fix.fhir [] 1000 "tok-1").1 =
      .err 400 "invalid_target"
        "Requested resource is not authorized by the referenced consent" ∧
    Fix.fhir.getConsent "c3" = some Fix.consentNoSp ∧
    Fix.consentNoSp.status = "active" ∧
    consentHasActor Fix.consentNoSp "org-sp" = false := by decide

/-- Helper: the token response and the stored tokens never depend on the
mTLS peer certificate; only the warning log line can. -/
theorem issueTokenResponse_peer_irrelevant
    (req : TokenRequest) (env : AuthEnv) (fhir : FHIRStore) (tokens : TokenStore)
    (now : Nat) (nid : String) (p₁ p₂ : Option (List Nat)) :
    issueTokenResponse req { env with peerCertDer := p₁ } fhir tokens now nid =
      issueTokenResponse req { env with peerCertDer := p₂ } fhir tokens now nid := by
  cases env
  rfl

/-- C4: every token record minted by a successful `/token` call carries
`cnf."x5t#S256"` equal to the unpadded base64url SHA-256 of the DER bytes
of the registered certificate of the client identified by the assertion
`iss` (the PEM read from the client `certPath`, armor stripped and
base64-decoded); and the mTLS peer certificate never influences the
response or the token store — a thumbprint mismatch surfaces only in the
warning log. -/
theorem issued_cnf_is_registered_cert_thumbprint
    (req : TokenRequest) (env : AuthEnv) (fhir : FHIRStore) (tokens : TokenStore)
    (now : Nat) (nid tok : String) (data : TokenData)
    (hOk : (issueTokenResponse req env fhir tokens now nid).1 = .ok tok data) :
    (∃ a client pem,
      req.client_assertion = some (some a) ∧
      env.clients.find? (fun c => c.clientId == a.iss) = some client ∧
      lookupCert env.certs client.certPath = some pem ∧
      data.cnf = some (base64UrlEncode (sha256 (base64Decode (pemBody pem))))) ∧
    (∀ p₁ p₂ : Option (List Nat),
      (issueToken req { env with peerCertDer := p₁ } fhir tokens now nid).result =
        (issueToken req { env with peerCertDer := p₂ } fhir tokens now nid).result ∧
      (issueToken req { env with peerCertDer := p₁ } fhir tokens now nid).tokens =
        (issueToken req { env with peerCertDer := p₂ } fhir tokens now nid).tokens) := by
  constructor
  · rcases hca : req.client_assertion with _ | ca
    · unfold issueTokenResponse at hOk
      simp [hca] at hOk
      repeat' split at hOk
      all_goals simp at hOk
    · rcases ca with _ | a
      · unfold issueTokenResponse at hOk
        simp only [hca] at hOk
        repeat' split at hOk
        all_goals simp at hOk
      · rcases hb : a.hl7b2b with _ | udap
        · unfold issueTokenResponse at hOk
          simp only [hca, hb] at hOk
          split at hOk
          · exact absurd hOk (by simp)
          · split at hOk
            · exact absurd hOk (by simp)
            · split at hOk
              · exact absurd hOk (by simp)
              · split at hOk
                · exact absurd hOk (by simp)
                · split at hOk
                  · exact absurd hOk (by simp)
                  · rename_i client hclient
                    split at hOk
                    · exact absurd hOk (by simp)
                    · rename_i pem hpem
                      split at hOk
                      · exact absurd hOk (by simp)
                      · split at hOk
                        · exact absurd hOk (by simp)
                        · split at hOk
                          · exact absurd hOk (by simp)
                          · simp only [Prod.fst] at hOk
                            injection hOk with hOk1 hOk2
                            refine ⟨a, client, pem, rfl, hclient, hpem, ?_⟩
                            rw [← hOk2]
                            rfl
        · unfold issueTokenResponse at hOk
          simp only [hca, hb] at hOk
          split at hOk
          · exact absurd hOk (by simp)
          · split at hOk
            · exact absurd hOk (by simp)
            · split at hOk
              · exact absurd hOk (by simp)
              · split at hOk
                · exact absurd hOk (by simp)
                · split at hOk
                  · exact absurd hOk (by simp)
                  · rename_i client hclient
                    split at hOk
                    · exact absurd hOk (by simp)
                    · rename_i pem hpem
                      split at hOk
                      · exact absurd hOk (by simp)
                      · split at hOk
                        · exact absurd hOk (by simp)
                        · split at hOk
                          · exact absurd hOk (by simp)
                          · split at hOk
                            · exact absurd hOk (by simp)
                            · simp only [Prod.fst] at hOk
                              injection hOk with hOk1 hOk2
                              refine ⟨a, client, pem, rfl, hclient, hpem, ?_⟩
                              rw [← hOk2]
                              rfl
  · intro p₁ p₂
    have h := issueTokenResponse_peer_irrelevant req env fhir tokens now nid p₁ p₂
    constructor
    · simp only [issueToken]
      rw [h]
    · simp only [issueToken]
      rw [h]

/-- C4 witness: the concrete issuance carries the thumbprint of the
registered certificate, and any two peer certificates leave the response
and the store identical. -/
theorem issued_cnf_witness :
    (∃ a client pem,
      (Fix.tokenReq (some Fix.b2bOk) "https://ds-gateway:8080/fhir").client_assertion =
        some (some a) ∧
      Fix.env.clients.find? (fun c => c.clientId == a.iss) = some client ∧
      lookupCert Fix.env.certs client.certPath = some pem ∧
      Fix.issuedData.cnf = some (base64UrlEncode (sha256 (base64Decode (pemBody pem))))) ∧
    (∀ p₁ p₂ : Option (List Nat),
      (issueToken (Fix.tokenReq (some Fix.b2bOk) "https://ds-gateway:8080/fhir")
          { Fix.env with peerCertDer := p₁ } Fix.fhir [] 1000 "tok-1").result =
        (issueToken (Fix.tokenReq (some Fix.b2bOk) "https://ds-gateway:8080/fhir")
          { Fix.env with peerCertDer := p₂ } Fix.fhir [] 1000 "tok-1").result ∧
      (issueToken (Fix.tokenReq (some Fix.b2bOk) "https://ds-gateway:8080/fhir")
          { Fix.env with peerCertDer := p₁ } Fix.fhir [] 1000 "tok-1").tokens =
        (issueToken (Fix.tokenReq (some Fix.b2bOk) "https://ds-gateway:8080/fhir")
          { Fix.env with peerCertDer := p₂ } Fix.fhir [] 1000 "tok-1").tokens) :=
  issued_cnf_is_registered_cert_thumbprint
    (Fix.tokenReq (some Fix.b2bOk) "https://ds-gateway:8080/fhir") Fix.env Fix.fhir
    [] 1000 "tok-1" "tok-1" Fix.issuedData (by decide)

/-- Helper: the requester test implies the party test. -/
theorem consentIsRequester_isParty (actors : List ConsentActor) (callerOrgId : String)
    (h : consentIsRequester actors callerOrgId = true) :
    consentIsParty actors callerOrgId = true := by
  simp only [consentIsRequester, List.any_eq_true, Bool.and_eq_true] at h
  obtain ⟨a, ha, _, h2⟩ := h
  simp only [consentIsParty, List.any_eq_true]
  exact ⟨a, ha, h2⟩

/-- C5 (amended): a `PUT /r4/Consent/:id` by a non-admin caller on an
existing consent (with matching id) returns 403 UNLESS the caller is the
IRCP requester and the submitted `status` is `inactive`; when it succeeds,
the stored consent changes only in `status` — every other difference in
the submitted body is silently discarded, not rejected. -/
theorem consent_update_requires_requester_inactive
    (user : TokenData) (idParam : String) (body existing : Consent) (fhir : FHIRStore)
    (hFound : fhir.getConsent idParam = some existing)
    (hId : ¬(truthy body.id = true ∧ body.id ≠ idParam))
    (hAdmin : isPcmAdmin fhir (some user) = false) :
    ((consentIsRequester existing.provisionActor user.organization_id = false ∨
        body.status ≠ "inactive") →
      ∃ d, putConsent user idParam body fhir = (.forbidden d, fhir)) ∧
    (consentIsRequester existing.provisionActor user.organization_id = true →
      body.status = "inactive" →
      putConsent user idParam body fhir =
        (.ok { existing with status := "inactive" },
         fhir.updateConsent { existing with status := "inactive" })) := by
  constructor
  · intro h
    unfold putConsent
    rw [hFound]
    simp only [if_neg hId, hAdmin]
    by_cases hp : consentIsParty existing.provisionActor user.organization_id = true
    · refine ⟨"Only requestor may set status=inactive", ?_⟩
      rcases h with h | h
      · simp [hp, h]
      · simp [hp, h]
    · refine ⟨"Access denied to this consent", ?_⟩
      simp only [Bool.not_eq_true] at hp
      simp [hp]
  · intro hreq hstatus
    have hp := consentIsRequester_isParty _ _ hreq
    unfold putConsent
    rw [hFound]
    simp [if_neg hId, hAdmin, hp, hreq, hstatus]

/-- C5 witness: the IRCP requester of the stored consent submitting a pure
status change to `inactive` is answered 200, and any other caller outcome
of the rule evaluates concretely. -/
theorem consent_update_witness :
    ((consentIsRequester Fix.consentOk.provisionActor Fix.spUser.organization_id = false ∨
        ({ Fix.consentOk with status := "inactive" } : Consent).status ≠ "inactive") →
      ∃ d, putConsent Fix.spUser "c1" { Fix.consentOk with status := "inactive" } Fix.fhir =
        (.forbidden d, Fix.fhir)) ∧
    (consentIsRequester Fix.consentOk.provisionActor Fix.spUser.organization_id = true →
      ({ Fix.consentOk with status := "inactive" } : Consent).status = "inactive" →
      putConsent Fix.spUser "c1" { Fix.consentOk with status := "inactive" } Fix.fhir =
        (.ok { Fix.consentOk with status := "inactive" },
         Fix.fhir.updateConsent { Fix.consentOk with status := "inactive" })) :=
  consent_update_requires_requester_inactive Fix.spUser "c1"
    { Fix.consentOk with status := "inactive" } Fix.consentOk Fix.fhir
    (by decide) (by decide) (by decide)

/-- C5 counterexample: the claim demands 403 when the IRCP requester body
changes any field other than `status`; the handler instead answers 200 and
silently discards the extra change (here a changed `note`). -/
theorem consent_update_other_change_counterexample :
    putConsent Fix.spUser "c1"
        { Fix.consentOk with status := "inactive", note := some "tampered" } Fix.fhir =
      (.ok { Fix.consentOk with status := "inactive" },
       Fix.fhir.updateConsent { Fix.consentOk with status := "inactive" }) ∧
    ({ Fix.consentOk with status := "inactive", note := some "tampered" } : Consent).note ≠
      Fix.consentOk.note ∧
    isPcmAdmin Fix.fhir (some Fix.spUser) = false ∧
    consentIsRequester Fix.consentOk.provisionActor "org-sp" = true := by decide

/-- Helper: a string containing a character is not empty. -/
theorem jsContains_truthy (p : String) (c : Char) (h : jsContains p c = true) :
    truthy p = true := by
  rcases p with ⟨l⟩
  cases l
  · simp [jsContains] at h
  · rename_i a l
    simp only [truthy, ne_eq, decide_eq_true_eq]
    intro hEq
    have h2 : (String.mk (a :: l)).data = ("" : String).data := congrArg String.data hEq
    simp at h2

/-- C6: for every introspection result with `active: true` whose `patient`
has the form `system|value`, the auth-check mints a local JWT whose
`patient` claim is `Patient/` followed by the lowercase-hex SHA-256 of the
UTF-8 bytes of `value` (the part after the pipe); and for every active
result whose `patient` is absent or contains no pipe, the auth-check fails
with status 401 and mints no token. -/
theorem pep_identity_mapping
    (hdr atok : String) (tokenEndpoint : Except Nat String)
    (hBearer : jsStartsWith hdr "Bearer " = true) :
    (∀ (introspectEndpoint : String → Except Nat TokenData) (r : TokenData)
        (p sys val : String),
      introspectEndpoint atok = .ok r → r.active = true →
      r.patient = some p → jsContains p '|' = true → jsSplit p '|' = [sys, val] →
      handleAuthCheck (some hdr) (some atok) tokenEndpoint introspectEndpoint =
        ⟨200, some ⟨r.client_id, r.scope, r.iss, r.aud, r.iat, r.client_id,
          r.fhirContext, r.cnf, "Patient/" ++ hexEncode (sha256 (utf8Encode val))⟩,
         some atok, [.introspect atok]⟩) ∧
    (∀ (introspectEndpoint : String → Except Nat TokenData) (r : TokenData),
      introspectEndpoint atok = .ok r → r.active = true →
      (r.patient = none ∨ ∃ p, r.patient = some p ∧ jsContains p '|' = false) →
      handleAuthCheck (some hdr) (some atok) tokenEndpoint introspectEndpoint =
        ⟨401, none, some atok, [.introspect atok]⟩) := by
  constructor
  · intro ie r p sys val hOracle hActive hPat hContains hSplit
    have htruthy := jsContains_truthy p '|' hContains
    have hmap : mapIdentity r = .ok ⟨r.client_id, r.scope, r.iss, r.aud, r.iat,
        r.client_id, r.fhirContext, r.cnf,
        "Patient/" ++ hexEncode (sha256 (utf8Encode val))⟩ := by
      unfold mapIdentity
      simp [hActive, hPat, htruthy, hContains, hSplit]
    unfold handleAuthCheck authCheckWithToken
    simp [hBearer, hOracle, hActive, hmap]
  · intro ie r hOracle hActive hBad
    have hmap : ∃ msg, mapIdentity r = .error msg := by
      unfold mapIdentity
      rcases hBad with hNone | ⟨p, hPat, hNoPipe⟩
      · simp [hActive, hNone]
      · by_cases htruthy : truthy p = true
        · simp [hActive, hPat, htruthy, hNoPipe]
        · simp only [Bool.not_eq_true] at htruthy
          simp [hActive, hPat, htruthy]
    obtain ⟨msg, hmap⟩ := hmap
    unfold handleAuthCheck authCheckWithToken
    simp [hBearer, hOracle, hActive, hmap]

/-- C6 witness: introspection returning `patient = "sys|123"` mints a local
token with `patient = "Patient/" + hex(SHA-256("123"))`; a record with no
patient context is answered 401 with no token. -/
theorem pep_identity_mapping_witness :
    (handleAuthCheck (some "Bearer ttok") (some "atok") (.ok "unused")
        (fun _ => .ok Fix.targetToken) =
      ⟨200, some ⟨Fix.targetToken.client_id, Fix.targetToken.scope,
        Fix.targetToken.iss, Fix.targetToken.aud, Fix.targetToken.iat,
        Fix.targetToken.client_id, Fix.targetToken.fhirContext, Fix.targetToken.cnf,
        "Patient/" ++ hexEncode (sha256 (utf8Encode "123"))⟩,
       some "atok", [.introspect "atok"]⟩) ∧
    (handleAuthCheck (some "Bearer ttok") (some "atok") (.ok "unused")
        (fun _ => .ok Fix.introspectorToken) =
      ⟨401, none, some "atok", [.introspect "atok"]⟩) :=
  ⟨(pep_identity_mapping "Bearer ttok" "atok" (.ok "unused") (by decide)).1
      (fun _ => .ok Fix.targetToken) Fix.targetToken "sys|123" "sys" "123"
      rfl (by decide) (by decide) (by decide) (by decide),
   (pep_identity_mapping "Bearer ttok" "atok" (.ok "unused") (by decide)).2
      (fun _ => .ok Fix.introspectorToken) Fix.introspectorToken rfl (by decide)
      (Or.inl (by decide))⟩

/-- C7 (amended): `POST /introspect` is answered — with the verbatim record
or with `{active: false}` — for EVERY caller presenting a valid, unexpired
bearer token whose organization resolves to an Endpoint with an address;
the caller scopes are never examined, so in particular a bearer token NOT
carrying the `introspection` scope is still answered, not rejected. -/
theorem introspection_scope_not_required
    (user : TokenData) (hdr atok tok epRef epId : String) (fhir : FHIRStore)
    (tokens : TokenStore) (now : Nat) (org : Organization) (rest : List String)
    (ep : Endpoint)
    (hHdr : jsStartsWith hdr "Bearer " = true)
    (hSplit : jsSplit hdr ' ' = ["Bearer", atok])
    (hUser : TokenStore.get tokens atok = some user)
    (hFresh : ¬ user.exp < now)
    (hNoScope : (jsSplit user.scope ' ').contains "introspection" = false)
    (hOrgId : truthy user.organization_id = true)
    (hOrg : fhir.getOrganization user.organization_id = some org)
    (hEp : org.endpoint = epRef :: rest)
    (hParts : jsSplit epRef '/' = ["Endpoint", epId])
    (hEpRes : fhir.getEndpoint epId = some ep)
    (hAddr : truthy ep.address = true)
    (hTok : truthy tok = true) :
    ∃ r, postIntrospect (some hdr) (some tok) fhir tokens now = (r, tokens) ∧
      (r = .inactive ∨ ∃ t, r = .record t) := by
  have hpipe : postIntrospect (some hdr) (some tok) fhir tokens now =
      (introspectToken user (some tok) fhir tokens now, tokens) := by
    unfold postIntrospect
    simp [hHdr, hSplit, hUser, hFresh]
  have hred : introspectToken user (some tok) fhir tokens now =
      (match TokenStore.get tokens tok with
       | none => .inactive
       | some t =>
         if t.exp < now then .inactive
         else if t.aud = ep.address then .record t else .inactive) := by
    unfold introspectToken
    simp only [hOrgId, hOrg, hEp, hParts]
    simp [hParts, hEpRes, hAddr, hTok]
  rcases hget : TokenStore.get tokens tok with _ | t
  · refine ⟨.inactive, ?_, Or.inl rfl⟩
    rw [hpipe, hred]
    simp only [hget]
  · by_cases hexp : t.exp < now
    · refine ⟨.inactive, ?_, Or.inl rfl⟩
      rw [hpipe, hred]
      simp [hget, hexp]
    · by_cases haud : t.aud = ep.address
      · refine ⟨.record t, ?_, Or.inr ⟨t, rfl⟩⟩
        rw [hpipe, hred]
        simp [hget, hexp, haud]
      · refine ⟨.inactive, ?_, Or.inl rfl⟩
        rw [hpipe, hred]
        simp [hget, hexp, haud]

/-- C7 witness: the concrete pipeline instance of the amended rule. -/
theorem introspection_scope_not_required_witness :
    ∃ r, postIntrospect (some "Bearer atok") (some "ttok") Fix.fhir Fix.tokens 1500 =
        (r, Fix.tokens) ∧
      (r = .inactive ∨ ∃ t, r = .record t) :=
  introspection_scope_not_required Fix.introspectorToken "Bearer atok" "atok"
    "ttok" "Endpoint/endpoint-ds" "endpoint-ds" Fix.fhir Fix.tokens 1500 Fix.orgDs
    [] Fix.epDs (by decide) (by decide) (by decide) (by decide) (by decide)
    (by decide) (by decide) (by decide) (by decide) (by decide) (by decide)
    (by decide)

/-- C7 counterexample: the claim says a valid, unexpired bearer token
lacking the `introspection` scope is rejected rather than answered; here
such a caller (the PEP, whose stored scope is `system/*.cruds`) is answered
with the full target record. -/
theorem introspection_without_scope_answered_counterexample :
    postIntrospect (some "Bearer atok") (some "ttok") Fix.fhir Fix.tokens 1500 =
      (.record Fix.targetToken, Fix.tokens) ∧
    (jsSplit Fix.introspectorToken.scope ' ').contains "introspection" = false ∧
    Fix.introspectorToken.exp = 5000 := by decide

/-- C8 (amended): when the introspection call to PCM fails with 401 or 403,
the PEP invalidates its cached access token and answers 401 to its caller
WITHOUT retrying: exactly one outbound introspection call is made and the
token endpoint is never called within the same request; the fresh token is
only fetched by a subsequent request, which starts with an empty cache. -/
theorem pep_no_retry_on_auth_failure
    (hdr atok : String) (s : Nat) (tokenEndpoint : Except Nat String)
    (introspectEndpoint : String → Except Nat TokenData)
    (hBearer : jsStartsWith hdr "Bearer " = true)
    (hErr : introspectEndpoint atok = .error s)
    (hS : s = 401 ∨ s = 403) :
    handleAuthCheck (some hdr) (some atok) tokenEndpoint introspectEndpoint =
      ⟨401, none, none, [.introspect atok]⟩ := by
  rcases hS with h | h <;>
    (unfold handleAuthCheck authCheckWithToken; simp [hBearer, hErr, h])

/-- C8 witness: concrete 401 from PCM clears the cache and yields a single
introspection call. -/
theorem pep_no_retry_on_auth_failure_witness :
    handleAuthCheck (some "Bearer ttok") (some "stale") (.ok "fresh") Fix.staleOracle =
      ⟨401, none, none, [.introspect "stale"]⟩ :=
  pep_no_retry_on_auth_failure "Bearer ttok" "stale" 401 (.ok "fresh")
    Fix.staleOracle (by decide) rfl (Or.inl rfl)

/-- C8 counterexample: the claim requires the failed operation to be
retried once with a freshly obtained token before answering 401; the
handler instead answers 401 after the single failed introspection call —
no token-endpoint call, no second introspection — although the very same
request with an empty cache (the NEXT request) obtains a fresh token and
succeeds. -/
theorem pep_retry_absent_counterexample :
    handleAuthCheck (some "Bearer ttok") (some "stale") (.ok "fresh") Fix.staleOracle =
      ⟨401, none, none, [.introspect "stale"]⟩ ∧
    handleAuthCheck (some "Bearer ttok") none (.ok "fresh") Fix.staleOracle =
      ⟨200, some ⟨Fix.targetToken.client_id, Fix.targetToken.scope,
        Fix.targetToken.iss, Fix.targetToken.aud, Fix.targetToken.iat,
        Fix.targetToken.client_id, Fix.targetToken.fhirContext, Fix.targetToken.cnf,
        "Patient/a665a45920422f9d417e4867efdc4fb8a04a1f3fff1fa07e998e86f7f7a27ae3"⟩,
       some "fresh", [.token, .introspect "fresh"]⟩ := by decide

/-- C9 (amended): the API performs NO uniqueness check over Endpoint
`address`: an authorized `POST /r4/Endpoint` whose address equals the
address of an already-stored Endpoint is accepted and appended, leaving two
distinct stored Endpoints with the same address. -/
theorem endpoint_address_uniqueness_not_enforced
    (user : TokenData) (ep : EndpointBody) (fhir : FHIRStore) (freshId : String)
    (e0 : Endpoint)
    (hType : ep.resourceType = "Endpoint")
    (hAdmin : isPcmAdmin fhir (some user) = true)
    (hIdTruthy : truthy ep.id = true)
    (hNoCollide : fhir.endpoints.any (fun x => x.id == ep.id) = false)
    (hDup : e0 ∈ fhir.endpoints)
    (hAddr : e0.address = ep.address) :
    ∃ e, postEndpoint user (some ep) fhir freshId =
        (.created e, { fhir with endpoints := fhir.endpoints ++ [e] }) ∧
      e.address = ep.address ∧ e0.id ≠ e.id ∧ e0.address = e.address ∧
      e0 ∈ ({ fhir with endpoints := fhir.endpoints ++ [e] } : FHIRStore).endpoints ∧
      e ∈ ({ fhir with endpoints := fhir.endpoints ++ [e] } : FHIRStore).endpoints := by
  refine ⟨⟨ep.id, ep.address, ep.managingOrganization⟩, ?_, rfl, ?_, hAddr, ?_, ?_⟩
  · unfold postEndpoint FHIRStore.addEndpoint
    simp [hType, hAdmin, hIdTruthy, hNoCollide]
  · intro hEq
    rw [List.any_eq_false] at hNoCollide
    exact absurd (by simp [hEq] : (e0.id == ep.id) = true) (by simpa using hNoCollide e0 hDup)
  · simp [hDup]
  · simp

/-- C9 witness: posting the second endpoint body against the store already
holding the first duplicate evaluates the amended rule concretely. -/
theorem endpoint_address_uniqueness_not_enforced_witness :
    ∃ e, postEndpoint Fix.pcmUser (some (Fix.epBody "ep2"))
        ⟨[Fix.orgPcm], [Fix.epDup1], [], []⟩ "f2" =
        (.created e,
         { (⟨[Fix.orgPcm], [Fix.epDup1], [], []⟩ : FHIRStore) with
            endpoints := [Fix.epDup1] ++ [e] }) ∧
      e.address = (Fix.epBody "ep2").address ∧ Fix.epDup1.id ≠ e.id ∧
      Fix.epDup1.address = e.address ∧
      Fix.epDup1 ∈ ({ (⟨[Fix.orgPcm], [Fix.epDup1], [], []⟩ : FHIRStore) with
            endpoints := [Fix.epDup1] ++ [e] } : FHIRStore).endpoints ∧
      e ∈ ({ (⟨[Fix.orgPcm], [Fix.epDup1], [], []⟩ : FHIRStore) with
            endpoints := [Fix.epDup1] ++ [e] } : FHIRStore).endpoints :=
  endpoint_address_uniqueness_not_enforced Fix.pcmUser (Fix.epBody "ep2")
    ⟨[Fix.orgPcm], [Fix.epDup1], [], []⟩ "f2" Fix.epDup1
    (by decide) (by decide) (by decide) (by decide) (by decide) (by decide)

/-- C9 counterexample: starting from a store with unique addresses, two
`POST /r4/Endpoint` calls by the admin produce two stored Endpoints with
the same address and different ids — the claimed invariant does not survive
API operations. -/
theorem endpoint_duplicate_address_counterexample :
    postEndpoint Fix.pcmUser (some (Fix.epBody "ep1")) Fix.fhirAdminOnly "f1" =
      (.created Fix.epDup1, ⟨[Fix.orgPcm], [Fix.epDup1], [], []⟩) ∧
    postEndpoint Fix.pcmUser (some (Fix.epBody "ep2"))
        ⟨[Fix.orgPcm], [Fix.epDup1], [], []⟩ "f2" =
      (.created Fix.epDup2, ⟨[Fix.orgPcm], [Fix.epDup1, Fix.epDup2], [], []⟩) ∧
    Fix.epDup1.id ≠ Fix.epDup2.id ∧
    Fix.epDup1.address = Fix.epDup2.address := by decide

/-- C10 (amended): for every non-admin `POST /r4/HealthcareService` whose
body is not catalog-tagged, carries no `basedOnCanonical` extension, no
`meta` element and no identifier, the operation stores two resources: a
canonical copy tagged `catalog` carrying a generated catalog identifier
under the fixed catalog-id system, and the instance tagged `instance` with
`providedBy` forced to the caller organization and `active` defaulted to
false, linked to the canonical via the based-on-canonical extension.  (A
body WITH a `meta` element defeats the canonical tagging — the shared
`meta` object ends up instance-tagged, see the counterexample — and a body
with an identifier keeps it instead of a generated one.) -/
theorem service_instance_creation_produces_canonical_and_instance
    (user : TokenData) (incoming : ServiceBody) (fhir : FHIRStore)
    (v cid iid : String)
    (hType : incoming.resourceType = "HealthcareService")
    (hAdmin : isPcmAdmin fhir (some user) = false)
    (hNoBasedOn : incoming.extension.find? (fun e => e.url == EXT_BASED_ON_CANONICAL) = none)
    (hOrg : truthy user.organization_id = true)
    (hMeta : incoming.meta = none)
    (hIdent : incoming.identifier = []) :
    postHealthcareService user (some incoming) fhir v cid iid =
      (.created
        ⟨(if truthy incoming.id = true then incoming.id else iid),
         some ("Organization/" ++ user.organization_id),
         some (incoming.active.getD false), [],
         incoming.extension ++
           [⟨EXT_BASED_ON_CANONICAL, some ("HealthcareService/" ++ cid)⟩],
         some [instanceTag]⟩,
       (fhir.addService
          ⟨cid, none, some true, [⟨CATALOG_ID_SYSTEM, "PCM-CAT-" ++ v⟩],
           (if incoming.extension = [] then [] else
             incoming.extension ++
               [⟨EXT_BASED_ON_CANONICAL, some ("HealthcareService/" ++ cid)⟩]),
           some [catalogTag]⟩).addService
          ⟨(if truthy incoming.id = true then incoming.id else iid),
           some ("Organization/" ++ user.organization_id),
           some (incoming.active.getD false), [],
           incoming.extension ++
             [⟨EXT_BASED_ON_CANONICAL, some ("HealthcareService/" ++ cid)⟩],
           some [instanceTag]⟩) := by
  unfold postHealthcareService
  simp [hType, hAdmin, hNoBasedOn, hOrg, hMeta, hIdent, hasCatalogTag]

/-- C10 witness: the plain body (no meta, no identifier) posted by the SP
produces the canonical-and-instance pair concretely. -/
theorem service_instance_creation_witness :
    postHealthcareService Fix.spUser (some Fix.svcBodyPlain) Fix.fhir "v1" "can-1" "inst-9" =
      (.created
        ⟨(if truthy Fix.svcBodyPlain.id = true then Fix.svcBodyPlain.id else "inst-9"),
         some ("Organization/" ++ Fix.spUser.organization_id),
         some (Fix.svcBodyPlain.active.getD false), [],
         Fix.svcBodyPlain.extension ++
           [⟨EXT_BASED_ON_CANONICAL, some ("HealthcareService/" ++ "can-1")⟩],
         some [instanceTag]⟩,
       (Fix.fhir.addService
          ⟨"can-1", none, some true, [⟨CATALOG_ID_SYSTEM, "PCM-CAT-" ++ "v1"⟩],
           (if Fix.svcBodyPlain.extension = [] then [] else
             Fix.svcBodyPlain.extension ++
               [⟨EXT_BASED_ON_CANONICAL, some ("HealthcareService/" ++ "can-1")⟩]),
           some [catalogTag]⟩).addService
          ⟨(if truthy Fix.svcBodyPlain.id = true then Fix.svcBodyPlain.id else "inst-9"),
           some ("Organization/" ++ Fix.spUser.organization_id),
           some (Fix.svcBodyPlain.active.getD false), [],
           Fix.svcBodyPlain.extension ++
             [⟨EXT_BASED_ON_CANONICAL, some ("HealthcareService/" ++ "can-1")⟩],
           some [instanceTag]⟩) :=
  service_instance_creation_produces_canonical_and_instance Fix.spUser
    Fix.svcBodyPlain Fix.fhir "v1" "can-1" "inst-9"
    (by decide) (by decide) (by decide) (by decide) (by decide) (by decide)

/-- C10 counterexample: a non-admin body that is not catalog-tagged and has
no canonical link, but carries a `meta` object with one unrelated tag: the
stored auto-created canonical is NOT tagged `catalog` — the meta object
shared between the two stored copies ends up with the instance tag — so the
claim fails as stated. -/
theorem service_canonical_not_catalog_tagged_counterexample :
    ((postHealthcareService Fix.spUser (some Fix.svcBodyMeta) Fix.fhir
        "v1" "can-1" "inst-9").2).getService "can-1" =
      some ⟨"can-1", none, some true, [⟨CATALOG_ID_SYSTEM, "PCM-CAT-v1"⟩], [],
            some [⟨"urn:x", "other", none⟩, instanceTag]⟩ ∧
    hasCatalogTag [⟨"urn:x", "other", none⟩, instanceTag] = false ∧
    hasCatalogTag (Fix.svcBodyMeta.meta.getD []) = false ∧
    Fix.svcBodyMeta.extension.find? (fun e => e.url == EXT_BASED_ON_CANONICAL) = none ∧
    isPcmAdmin Fix.fhir (some Fix.spUser) = false := by decide

/-- Supporting invariant: a `/token` call either leaves the token store
unchanged or inserts one record with `active = true`.  (This justifies the
store-wellformedness hypothesis of the introspection theorem: every record
that can reach the store is active.) -/
theorem issueTokenResponse_tokens_cases
    (req : TokenRequest) (env : AuthEnv) (fhir : FHIRStore) (tokens : TokenStore)
    (now : Nat) (nid : String) :
    (issueTokenResponse req env fhir tokens now nid).2 = tokens ∨
    ∃ d, (issueTokenResponse req env fhir tokens now nid).2 =
        TokenStore.set tokens nid d ∧ d.active = true := by
  unfold issueTokenResponse
  dsimp only
  repeat' split
  all_goals first
    | exact Or.inl rfl
    | exact Or.inr ⟨_, rfl, rfl⟩

/-- Supporting invariant: token issuance preserves the property that every
stored record is active. -/
theorem issueTokenResponse_preserves_active
    (req : TokenRequest) (env : AuthEnv) (fhir : FHIRStore) (tokens : TokenStore)
    (now : Nat) (nid : String)
    (hInv : ∀ k t, TokenStore.get tokens k = some t → t.active = true) :
    ∀ k t, TokenStore.get (issueTokenResponse req env fhir tokens now nid).2 k = some t →
      t.active = true := by
  intro k t h
  rcases issueTokenResponse_tokens_cases req env fhir tokens now nid with hc | ⟨d, hc, hd⟩
  · rw [hc] at h
    exact hInv k t h
  · rw [hc] at h
    unfold TokenStore.get TokenStore.set at h
    by_cases hk : (nid == k) = true
    · simp [List.find?, hk] at h
      rw [← h]
      exact hd
    · simp [List.find?, hk] at h
      exact hInv k t (by simpa [TokenStore.get] using h)

end HDP

/-- Sanity check of the SHA-256 embedding against the digest that both the
specification scenario and the DS identity-mapping test quote for the
input string `123`. -/
theorem sha256_digest_of_123 :
    HDP.hexEncode (HDP.sha256 (HDP.utf8Encode "123")) =
      "a665a45920422f9d417e4867efdc4fb8a04a1f3fff1fa07e998e86f7f7a27ae3" := by
  decide
